import Mathlib

/-!
Verification development for the document-intelligence subsystem of the
residency-platform repository: the patient document indexer
(`apps/api/app/services/patient_document_index.py`) and the attachment-assist
job manager (`apps/api/app/services/attachment_assist_jobs.py`).

The Python code is shallowly embedded as pure Lean functions.  Filesystem and
subprocess behaviour (file existence, stat signatures, OCR-tool output) is
supplied through explicit oracle fields carried on each catalog file item, so
that one run of the embedded index cycle corresponds to one run of
`run_index_cycle` against a fixed external world.  Strings are handled with
helpers that mirror the semantics of the Python `str` methods used by the
source (`strip`, `split`, `splitlines`, `lower`, `count`, `find`, `in`,
`replace`).  All text in the repository's data is ASCII, for which these
helpers agree with CPython.  Numeric lab values are represented as exact
rationals; the repository only ever parses decimal tokens and compares them
against decimal bounds, for which rational arithmetic agrees with the
Python-float computation on every input appearing in the claims.
-/

/-! ### Python string semantics -/

/-- Whitespace characters recognised by Python `str.strip` / `str.split`. -/
def isPyWs (c : Char) : Bool :=
  c = ' ' || c = '\t' || c = '\n' || c = '\r' || c = '\x0b' || c = '\x0c'

/-- Left-strip whitespace from a character list. -/
def dropWsL (l : List Char) : List Char := l.dropWhile isPyWs

/-- Python `str.strip()` on a character list. -/
def pyStripL (l : List Char) : List Char :=
  ((dropWsL l).reverse.dropWhile isPyWs).reverse

/-- Python `str.rstrip()` on a character list. -/
def pyRstripL (l : List Char) : List Char :=
  (l.reverse.dropWhile isPyWs).reverse

/-- Python `str.split()` (split on whitespace runs, no empty tokens). -/
def pySplitWsAux : List Char → List Char → List (List Char)
  | [], acc => if acc.isEmpty then [] else [acc.reverse]
  | c :: rest, acc =>
    if isPyWs c then
      if acc.isEmpty then pySplitWsAux rest []
      else acc.reverse :: pySplitWsAux rest []
    else pySplitWsAux rest (c :: acc)

def pySplitWsL (l : List Char) : List (List Char) := pySplitWsAux l []

/-- Python `str.splitlines()`: split on \n, \r and \r\n, no trailing empty line. -/
def pySplitlinesL : List Char → List Char → List (List Char)
  | [], acc => if acc.isEmpty then [] else [acc.reverse]
  | '\r' :: '\n' :: rest, acc => acc.reverse :: pySplitlinesL rest []
  | '\n' :: rest, acc => acc.reverse :: pySplitlinesL rest []
  | '\r' :: rest, acc => acc.reverse :: pySplitlinesL rest []
  | c :: rest, acc => pySplitlinesL rest (c :: acc)

/-- Join a list of character lists with a separator. -/
def joinSepL (sep : List Char) : List (List Char) → List Char
  | [] => []
  | [x] => x
  | x :: y :: rest => x ++ sep ++ joinSepL sep (y :: rest)

/-- Substring test (Python `needle in hay`). -/
def listContainsB (needle : List Char) : List Char → Bool
  | [] => needle.isEmpty
  | a :: rest => needle.isPrefixOf (a :: rest) || listContainsB needle rest

/-- First index of a substring (Python `str.find`, as an `Option`). -/
def listFindIdx (needle : List Char) : List Char → Nat → Option Nat
  | [], i => if needle.isEmpty then some i else none
  | a :: rest, i =>
    if needle.isPrefixOf (a :: rest) then some i
    else listFindIdx needle rest (i + 1)

/-- Count of non-overlapping substring occurrences with fuel
(Python `str.count` for a non-empty needle). -/
def listCountAux (needle : List Char) : Nat → List Char → Nat
  | 0, _ => 0
  | _ + 1, [] => 0
  | fuel + 1, a :: rest =>
    if needle.isPrefixOf (a :: rest) then
      1 + listCountAux needle fuel ((a :: rest).drop needle.length)
    else listCountAux needle fuel rest

/-! String-level wrappers.  `String` is a structure over `List Char`, so these
definitions are kernel-computable on concrete inputs. -/

def pyLower (s : String) : String := ⟨s.data.map Char.toLower⟩

def pyStrip (s : String) : String := ⟨pyStripL s.data⟩

def pySplitWs (s : String) : List String := (pySplitWsL s.data).map String.mk

def pySplitlines (s : String) : List String := (pySplitlinesL s.data []).map String.mk

/-- Python `" ".join(line.split()).strip()`: collapse internal whitespace.
The trailing `strip` is a no-op after the join, so it is not repeated. -/
def pyCollapseWs (s : String) : String :=
  ⟨joinSepL [' '] (pySplitWsL s.data)⟩

def strContainsB (hay needle : String) : Bool := listContainsB needle.data hay.data

def strCount (hay needle : String) : Nat :=
  if needle.data.isEmpty then hay.data.length + 1
  else listCountAux needle.data hay.data.length hay.data

def strFind (hay needle : String) : Option Nat := listFindIdx needle.data hay.data 0

/-- Python truthiness / `or` chain on an optional string: `x or default`. -/
def pyOr (o : Option String) (d : String) : String :=
  match o with
  | none => d
  | some s => if s = "" then d else s

/-- Python `str(x or "") or None`: collapse an empty string to `None`. -/
def pyNoneIfEmpty (s : String) : Option String := if s = "" then none else some s

/-- Python slice `s[:n]` for a character count (`String.take` is per-`Char`,
matching Python's per-code-point slicing on the ASCII data in scope). -/
def pyTake (s : String) (n : Nat) : String := ⟨s.data.take n⟩

def pyDrop (s : String) (n : Nat) : String := ⟨s.data.drop n⟩

/-! ### Numeric tokens

Embedding of `NUMBER_PATTERN = re.compile(r"[-+]?\d+(?:\.\d+)?")` and the
`finditer` scan used by `_parse_metric_value_from_line` and
`_parse_number_after_match`: leftmost, non-overlapping, greedy matches. -/

def takeDigits (l : List Char) : List Char × List Char :=
  (l.takeWhile Char.isDigit, l.dropWhile Char.isDigit)

/-- Attempt a `NUMBER_PATTERN` match at the head of the list; returns the
matched token. -/
def numMatchAt (cs : List Char) : Option (List Char) :=
  let pair :=
    match cs with
    | c :: rest => if c = '-' || c = '+' then ([c], rest) else (([] : List Char), cs)
    | [] => (([] : List Char), cs)
  let ds := (takeDigits pair.2).1
  let r2 := (takeDigits pair.2).2
  if ds.isEmpty then none
  else
    match r2 with
    | '.' :: r3 =>
      let fs := (takeDigits r3).1
      if fs.isEmpty then some (pair.1 ++ ds) else some (pair.1 ++ ds ++ '.' :: fs)
    | _ => some (pair.1 ++ ds)

/-- Leftmost non-overlapping `NUMBER_PATTERN` matches with start offsets. -/
def numFindAux : Nat → List Char → Nat → List (Nat × List Char)
  | 0, _, _ => []
  | _ + 1, [], _ => []
  | fuel + 1, c :: rest, i =>
    match numMatchAt (c :: rest) with
    | some tok => (i, tok) :: numFindAux fuel ((c :: rest).drop tok.length) (i + tok.length)
    | none => numFindAux fuel rest (i + 1)

def digitsToNat (l : List Char) : Nat :=
  l.foldl (fun acc c => acc * 10 + (c.toNat - '0'.toNat)) 0

/-- Exact decimal number: the value `mant / 10 ^ exp`.  Python parses the
tokens into IEEE doubles; every token and bound compared in the claims is a
short decimal, on which this exact model agrees with CPython's comparisons
and 2-decimal rounding. -/
structure Dec where
  mant : ℤ
  exp : ℕ
  deriving Repr, DecidableEq

/-- Rational value denoted by a decimal. -/
def Dec.toRat (d : Dec) : ℚ := (d.mant : ℚ) / (10 : ℚ) ^ d.exp

/-- Value comparison on decimals (cross-multiplied, kernel-computable). -/
def Dec.ltB (a b : Dec) : Bool := a.mant * (10 : ℤ) ^ b.exp < b.mant * (10 : ℤ) ^ a.exp

/-- Python `abs(value) > 100000`. -/
def Dec.absGtCap (d : Dec) : Bool := 100000 * (10 : ℤ) ^ d.exp < |d.mant|

/-- Decimal value of an unsigned `NUMBER_PATTERN` token. -/
def tokenToDecPos (tok : List Char) : Dec :=
  let ds := (takeDigits tok).1
  match (takeDigits tok).2 with
  | '.' :: fs => ⟨(digitsToNat ds : ℤ) * (10 : ℤ) ^ fs.length + (digitsToNat fs : ℤ), fs.length⟩
  | _ => ⟨(digitsToNat ds : ℤ), 0⟩

/-- Python `float(token)` for a `NUMBER_PATTERN` token, as an exact decimal. -/
def tokenToDec (tok : List Char) : Dec :=
  match tok with
  | '-' :: rest => ⟨-(tokenToDecPos rest).mant, (tokenToDecPos rest).exp⟩
  | '+' :: rest => tokenToDecPos rest
  | _ => tokenToDecPos tok

/-- All numeric tokens of a string with their start offsets and values. -/
def numFinditerD (s : String) : List (Nat × Dec) :=
  (numFindAux s.data.length s.data 0).map (fun p => (p.1, tokenToDec p.2))

/-- Python `line.replace(",", "")` (thousands-separator stripping). -/
def pyRemoveCommas (s : String) : String := ⟨s.data.filter (fun c => c ≠ ',')⟩

/-- Round `a / b` (with `b > 0`) to the nearest integer, half to even
(Python banker's rounding). -/
def roundHalfEvenFrac (a b : ℤ) : ℤ :=
  let n := Int.fdiv a b
  let r := a - n * b
  if 2 * r < b then n
  else if b < 2 * r then n + 1
  else if n % 2 = 0 then n else n + 1

/-- Python `round(value, 2)`. -/
def round2 (d : Dec) : Dec := ⟨roundHalfEvenFrac (d.mant * 100) ((10 : ℤ) ^ d.exp), 2⟩

/-! ### Word-boundary alternation patterns

Every recognition regex in `LAB_TREND_METRICS` has the shape
`\b(?:alt1|alt2|...)\b` with `re.IGNORECASE`, where each alternative is a
literal once `\s+`/`[\s-]?` are expanded against the whitespace-collapsed
lines the extractor feeds to `pattern.search` (collapsing makes `\s+` match
exactly one space).  A pattern is embedded as its ordered list of literal
alternatives (regex preference order: leftmost position first, then
alternative order, greedy optional groups first). -/

def isWordChar (c : Char) : Bool := c.isAlphanum || c = '_'

/-- Case-insensitive literal prefix match. -/
def ciPrefix : List Char → List Char → Bool
  | [], _ => true
  | _ :: _, [] => false
  | a :: as, b :: bs => (a.toLower = b.toLower) && ciPrefix as bs

/-- Try the alternatives at the current position (with word boundaries);
returns the match length. -/
def altMatchLenAt (alts : List String) (cs : List Char) (prevIsWord : Bool) : Option Nat :=
  if prevIsWord then none
  else
    alts.findSome? (fun alt =>
      if ciPrefix alt.data cs then
        match cs.drop alt.data.length with
        | [] => some alt.data.length
        | c :: _ => if isWordChar c then none else some alt.data.length
      else none)

def searchAltsAux (alts : List String) : List Char → Nat → Bool → Option Nat
  | [], _, _ => none
  | c :: rest, i, prevIsWord =>
    match altMatchLenAt alts (c :: rest) prevIsWord with
    | some len => some (i + len)
    | none => searchAltsAux alts rest (i + 1) (isWordChar c)

/-- Python `pattern.search(line)` returning `match.end()` for a
word-boundary alternation pattern. -/
def searchAlts (alts : List String) (line : String) : Option Nat :=
  searchAltsAux alts line.data 0 false

/-! ### Lab metric catalogue (`LAB_TREND_METRICS`) -/

structure LabMetric where
  metric_key : String
  label : String
  unit : String
  patterns : List (List String)
  normal_min : Dec
  normal_max : Dec
  deriving Repr, DecidableEq

def hbMetric : LabMetric :=
  { metric_key := "hb", label := "Hemoglobin", unit := "g/dL"
    patterns := [["hb", "hgb", "haemoglobin", "hemoglobin"]]
    normal_min := ⟨100, 1⟩, normal_max := ⟨165, 1⟩ }

def wbcMetric : LabMetric :=
  { metric_key := "wbc", label := "WBC / TLC", unit := "10^3/uL"
    patterns := [["wbc", "tlc", "total leucocyte", "total leukocyte"]]
    normal_min := ⟨40, 1⟩, normal_max := ⟨110, 1⟩ }

def plateletsMetric : LabMetric :=
  { metric_key := "platelets", label := "Platelets", unit := "10^3/uL"
    patterns := [["platelets", "platelet", "plt"]]
    normal_min := ⟨1500, 1⟩, normal_max := ⟨4500, 1⟩ }

def crpMetric : LabMetric :=
  { metric_key := "crp", label := "CRP", unit := "mg/L"
    patterns := [["crp", "c reactive protein", "c-reactive protein", "creactive protein"]]
    normal_min := ⟨0, 1⟩, normal_max := ⟨60, 1⟩ }

def bilirubinTotalMetric : LabMetric :=
  { metric_key := "bilirubin_total", label := "Bilirubin Total", unit := "mg/dL"
    patterns := [["total bilirubin", "bilirubin total"]]
    normal_min := ⟨2, 1⟩, normal_max := ⟨12, 1⟩ }

def astMetric : LabMetric :=
  { metric_key := "ast", label := "AST / SGOT", unit := "U/L"
    patterns := [["ast", "sgot"]]
    normal_min := ⟨0, 1⟩, normal_max := ⟨400, 1⟩ }

def altMetric : LabMetric :=
  { metric_key := "alt", label := "ALT / SGPT", unit := "U/L"
    patterns := [["alt", "sgpt"]]
    normal_min := ⟨0, 1⟩, normal_max := ⟨400, 1⟩ }

def alpMetric : LabMetric :=
  { metric_key := "alp", label := "ALP", unit := "U/L"
    patterns := [["alp", "alkaline phosphatase"]]
    normal_min := ⟨440, 1⟩, normal_max := ⟨1470, 1⟩ }

def labTrendMetrics : List LabMetric :=
  [hbMetric, wbcMetric, plateletsMetric, crpMetric, bilirubinTotalMetric,
   astMetric, altMetric, alpMetric]

/-! ### Metric value extraction -/

/-- The candidate filter `[c for c in candidates if c.start() >= match_end]`. -/
def afterToks (matchEnd : Nat) (l : List (Nat × Dec)) : List (Nat × Dec) :=
  l.filter (fun p => matchEnd ≤ p.1)

/-- The candidate loop shared by both parsers: first token whose magnitude
passes the 100000 cap. -/
def plausibleFirst (l : List (Nat × Dec)) : Option Dec :=
  l.findSome? (fun p => if p.2.absGtCap then none else some p.2)

/-- Embedding of `_parse_metric_value_from_line(line, match_end)`. -/
def parseMetricValueFromLine (line : String) (matchEnd : Nat) : Option Dec :=
  if line = "" then none
  else
    let candidates := numFinditerD (pyRemoveCommas line)
    if candidates.isEmpty then none
    else
      plausibleFirst
        (if (afterToks matchEnd candidates).isEmpty then candidates
         else afterToks matchEnd candidates)

/-- Embedding of `attachment_assist._parse_number_after_match(line, start)`
(identical scan, but rounds inside the loop). -/
def parseNumberAfterMatch (line : String) (start : Nat) : Option Dec :=
  let numbers := numFinditerD (pyRemoveCommas line)
  if numbers.isEmpty then none
  else
    (if (afterToks start numbers).isEmpty then numbers
     else afterToks start numbers).findSome?
      (fun p => if p.2.absGtCap then none else some (round2 p.2))

/-- Embedding of `_classify_metric_value`. -/
def classifyMetricValue (m : LabMetric) (v : Dec) : String :=
  if v.ltB m.normal_min then "low"
  else if m.normal_max.ltB v then "high"
  else "normal"

/-- One inner iteration of `_extract_metric_point`'s line loop: collapse
whitespace, try each pattern in order, parse a value at the match end.
Returns `(rounded value, status, stored line)`. -/
def metricLineStep (m : LabMetric) (rawLine : String) : Option (Dec × String × String) :=
  let line := pyCollapseWs rawLine
  if line = "" then none
  else
    m.patterns.findSome? (fun alts =>
      match searchAlts alts line with
      | none => none
      | some mEnd =>
        match parseMetricValueFromLine line mEnd with
        | none => none
        | some v => some (round2 v, classifyMetricValue m (round2 v), pyTake line 280))

example : searchAlts ["hb", "hgb", "haemoglobin", "hemoglobin"] "Hb - 9.8 g/dL" = some 2 := by decide
example : searchAlts ["platelets", "platelet", "plt"] "Platelets: 520" = some 9 := by decide
example : searchAlts ["hb"] "rhb hbx" = none := by decide
example : numFinditerD "Hb - 9.8 g/dL" = [(5, ⟨98, 1⟩)] := by decide
example : parseMetricValueFromLine "Hb - 9.8 g/dL" 2 = some ⟨98, 1⟩ := by decide
example : parseMetricValueFromLine "12 Hb" 5 = some ⟨12, 0⟩ := by decide
example : metricLineStep hbMetric "Hb - 9.8 g/dL" = some (⟨980, 2⟩, "low", "Hb - 9.8 g/dL") := by decide
example : metricLineStep plateletsMetric "Platelets: 520" = some (⟨52000, 2⟩, "high", "Platelets: 520") := by decide
example : Dec.toRat ⟨980, 2⟩ = 49 / 5 := by norm_num [Dec.toRat]
example : round2 ⟨123456, 5⟩ = ⟨123, 2⟩ := by decide
example : numFinditerD (pyRemoveCommas "1,234 and -5.6") = [(0, ⟨1234, 0⟩), (9, ⟨-56, 1⟩)] := by decide

/-! ### Indexer data model

Embedding of `PatientDocumentIndexer`.  The patient catalog rows and file
rows are dict-shaped in Python (`dict.get` returning `None` for absent
keys), embedded as records of `Option` fields.  Each `FileItem` also
carries the outcome that the external world (filesystem, marker/pdftotext/
tesseract subprocesses) would deliver for that file during the cycle, so a
single run of the embedded cycle corresponds to a run of `run_index_cycle`
against a fixed environment. -/

deriving instance DecidableEq for Except

structure PatientCard where
  patient_key : Option String
  display_name : Option String
  study_id : Option String
  case_bucket : Option String
  svt_status : Option String
  deriving Repr, DecidableEq

structure FileItem where
  file_id : Option String
  file_name : Option String
  relative_path : Option String
  category : Option String
  mime_type : Option String
  extension : Option String
  updated_at : Option String
  size_bytes : Option Int
  is_text : Bool
  fs_exists : Bool
  fs_signature : Option String
  tool_read : Except String String
  tool_marker : Except String String
  tool_pdftotext : Except String String
  tool_tesseract : Except String String
  deriving Repr, DecidableEq

def markerSupportedExtensions : List String :=
  [".pdf", ".png", ".jpg", ".jpeg", ".tif", ".tiff", ".bmp", ".webp"]

def textExtensions : List String := [".md", ".txt", ".csv", ".json", ".yaml", ".yml"]

/-- Embedding of `_is_searchable`. -/
def isSearchable (item : FileItem) : Bool :=
  item.is_text || markerSupportedExtensions.contains (pyLower (pyOr item.extension ""))

/-- Embedding of `_coerce_text`. -/
def coerceText (s : String) : String :=
  ⟨pyStripL (joinSepL ['\n'] ((pySplitlinesL s.data []).map pyRstripL))⟩

/-- Embedding of `_extract_from_text_file`: `(text?, error?)`.  The oracle
field `tool_read` is the raw content delivered by `path.read_text`, or the
`OSError` text. -/
def extractFromTextFile (item : FileItem) : Option String × Option String :=
  match item.tool_read with
  | .error e => (none, some e)
  | .ok content => (some (coerceText content), none)

/-- Embedding of `_extract_from_marker`.  The oracle field `tool_marker` is
the `_read_marker_output` result of a successful subprocess run (already
coerced, possibly empty), or the subprocess error text (which absorbs the
one-time argument-style retry, affecting only the error string). -/
def extractFromMarker (item : FileItem) : Option String × Option String :=
  match item.tool_marker with
  | .error e => (none, some e)
  | .ok extracted =>
    if extracted ≠ "" then (some extracted, none)
    else (none, some "Marker returned success but no text output was produced")

/-- Embedding of `_extract_from_pdftotext`; `tool_pdftotext` is the
subprocess stdout, or the error text. -/
def extractFromPdftotext (item : FileItem) : Option String × Option String :=
  match item.tool_pdftotext with
  | .error e => (none, some e)
  | .ok out =>
    let text := coerceText out
    if text ≠ "" then (some text, none) else (none, some "pdftotext produced empty output")

/-- Embedding of `_extract_from_tesseract`. -/
def extractFromTesseract (item : FileItem) : Option String × Option String :=
  match item.tool_tesseract with
  | .error e => (none, some e)
  | .ok out =>
    let text := coerceText out
    if text ≠ "" then (some text, none) else (none, some "tesseract produced empty output")

/-- Embedding of `_extract_document_text`: `(text?, extractor, error?)`. -/
def extractDocumentText (item : FileItem) : Option String × String × Option String :=
  let ext := pyLower (pyOr item.extension "")
  if item.is_text || textExtensions.contains ext then
    let r := extractFromTextFile item
    match r.1 with
    | some t =>
      if t ≠ "" then (some t, "native_text", none)
      else (none, "native_text", some (pyOr r.2 "Unable to read text file"))
    | none => (none, "native_text", some (pyOr r.2 "Unable to read text file"))
  else if markerSupportedExtensions.contains ext then
    let m := extractFromMarker item
    match m.1 with
    | some t => (some t, "marker", none)
    | none =>
      if ext = ".pdf" then
        let f := extractFromPdftotext item
        match f.1 with
        | some t => (some t, "pdftotext", none)
        | none =>
          (none, "marker",
            some (pyOr m.2 "Marker extraction failed" ++ "; " ++ pyOr f.2 "pdftotext failed"))
      else
        let f := extractFromTesseract item
        match f.1 with
        | some t => (some t, "tesseract", none)
        | none =>
          (none, "marker",
            some (pyOr m.2 "Marker extraction failed" ++ "; " ++ pyOr f.2 "tesseract failed"))
  else (none, "unsupported", some ("Unsupported extension for OCR indexing: " ++ ext))

/-- One Document Record (the per-(patient, file) dict owned by the index). -/
structure DocRecord where
  patient_key : Option String
  patient_display_name : Option String
  study_id : Option String
  case_bucket : Option String
  svt_status : Option String
  file_id : Option String
  file_name : Option String
  relative_path : Option String
  category : Option String
  mime_type : Option String
  extension : Option String
  updated_at : Option String
  size_bytes : Option Int
  signature : Option String
  status : String
  error : Option String
  extractor : String
  indexed_at : String
  text : String
  text_chars : Nat
  truncated : Bool
  deriving Repr, DecidableEq

/-- Indexer configuration after `__init__` (claims quantify over already
normalized configurations via `IndexerConfig.normalize`). -/
structure IndexerConfig where
  marker_command : String
  scan_interval_sec : ℚ
  maxDocumentChars : Nat
  binaryPerCycleLimit : Nat
  deriving Repr, DecidableEq

/-- The clamping performed by `PatientDocumentIndexer.__init__`. -/
def IndexerConfig.normalize (c : IndexerConfig) : IndexerConfig :=
  { marker_command := if pyStrip c.marker_command = "" then "marker_single" else pyStrip c.marker_command
    scan_interval_sec := max c.scan_interval_sec 5
    maxDocumentChars := max c.maxDocumentChars 10000
    binaryPerCycleLimit := max c.binaryPerCycleLimit 1 }

/-- Embedding of `_document_key`. -/
def documentKey (patientKey fileId : String) : String :=
  pyLower (patientKey ++ "::" ++ fileId)

/-- Embedding of `_build_document_record`. -/
def buildDocumentRecord (cfg : IndexerConfig) (now : String) (card : PatientCard)
    (item : FileItem) (signature : String) (text : String) (extractor : String) : DocRecord :=
  let truncated := cfg.maxDocumentChars < text.data.length
  let text' := if truncated then pyTake text cfg.maxDocumentChars else text
  { patient_key := card.patient_key
    patient_display_name := card.display_name
    study_id := card.study_id
    case_bucket := card.case_bucket
    svt_status := card.svt_status
    file_id := item.file_id
    file_name := item.file_name
    relative_path := item.relative_path
    category := item.category
    mime_type := item.mime_type
    extension := item.extension
    updated_at := item.updated_at
    size_bytes := item.size_bytes
    signature := some signature
    status := "indexed"
    error := none
    extractor := extractor
    indexed_at := now
    text := text'
    text_chars := text'.data.length
    truncated := truncated }

/-- Embedding of `_build_failure_record`. -/
def buildFailureRecord (now : String) (card : PatientCard) (item : FileItem)
    (signature : Option String) (extractor : String) (error : String) : DocRecord :=
  { patient_key := card.patient_key
    patient_display_name := card.display_name
    study_id := card.study_id
    case_bucket := card.case_bucket
    svt_status := card.svt_status
    file_id := item.file_id
    file_name := item.file_name
    relative_path := item.relative_path
    category := item.category
    mime_type := item.mime_type
    extension := item.extension
    updated_at := item.updated_at
    size_bytes := item.size_bytes
    signature := signature
    status := "failed"
    error := some error
    extractor := extractor
    indexed_at := now
    text := ""
    text_chars := 0
    truncated := false }

/-- Embedding of `_build_pending_record`. -/
def buildPendingRecord (now : String) (card : PatientCard) (item : FileItem)
    (signature : Option String) (reason : String) : DocRecord :=
  { patient_key := card.patient_key
    patient_display_name := card.display_name
    study_id := card.study_id
    case_bucket := card.case_bucket
    svt_status := card.svt_status
    file_id := item.file_id
    file_name := item.file_name
    relative_path := item.relative_path
    category := item.category
    mime_type := item.mime_type
    extension := item.extension
    updated_at := item.updated_at
    size_bytes := item.size_bytes
    signature := signature
    status := "pending"
    error := some reason
    extractor := "queued"
    indexed_at := now
    text := ""
    text_chars := 0
    truncated := false }

/-- The in-place metadata update applied by the signature-match branch of
`run_index_cycle` (`existing.update({...})`). -/
def refreshRecord (card : PatientCard) (item : FileItem) (r : DocRecord) : DocRecord :=
  { r with
    patient_display_name := card.display_name
    study_id := card.study_id
    case_bucket := card.case_bucket
    svt_status := card.svt_status
    category := item.category
    updated_at := item.updated_at
    size_bytes := item.size_bytes
    mime_type := item.mime_type
    extension := item.extension
    file_name := item.file_name
    relative_path := item.relative_path }

/-! ### Insertion-ordered dictionaries (Python `dict` semantics) -/

def dictGet {α : Type} : List (String × α) → String → Option α
  | [], _ => none
  | (k', v) :: rest, k => if k' = k then some v else dictGet rest k

def dictSet {α : Type} : List (String × α) → String → α → List (String × α)
  | [], k, v => [(k, v)]
  | (k', v') :: rest, k, v =>
    if k' = k then (k, v) :: rest else (k', v') :: dictSet rest k v

/-- The singleton index (`self._index`), version tag omitted because it is
the constant `1` on every path of the source. -/
structure IndexState where
  updated_at : Option String
  last_cycle_started_at : Option String
  last_cycle_finished_at : Option String
  last_cycle_error : Option String
  documents : List (String × DocRecord)
  deriving Repr, DecidableEq

structure CatalogEntry where
  patient : PatientCard
  files : List FileItem
  deriving Repr, DecidableEq

/-- The flattening performed by the nested catalog loop of
`run_index_cycle`: entries whose patient key collapses to the empty string
are skipped wholesale. -/
def flattenCatalog : List CatalogEntry → List (PatientCard × FileItem)
  | [] => []
  | e :: rest =>
    if pyLower (pyStrip (pyOr e.patient.patient_key "")) = "" then flattenCatalog rest
    else e.files.map (fun f => (e.patient, f)) ++ flattenCatalog rest

/-- Mutable state threaded through the per-file loop of `run_index_cycle`.
`localDocs` is the working copy `documents = dict(self._index["documents"])`;
`sharedDocs` is the view of the same records still reachable from
`self._index` — `dict()` is a shallow copy, so the in-place
`existing.update(...)` of the refresh branch is visible through both, while
rebinding `documents[key] = new_record` is visible only in the copy.
`rebound` lists the keys whose `localDocs` entry no longer aliases the
original record.  `extractedKeys` is specification-only bookkeeping: the
keys for which `_extract_document_text` (the extraction pipeline) ran, in
order. -/
structure LoopState where
  localDocs : List (String × DocRecord)
  sharedDocs : List (String × DocRecord)
  rebound : List String
  searchableKeys : List String
  binCount : Nat
  extractedKeys : List String
  deriving Repr, DecidableEq

/-- Throttle check plus extraction, i.e. the tail of the per-file loop body
once the refresh branch did not fire. -/
def processExtract (cfg : IndexerConfig) (force : Bool) (tp tf now : String)
    (s : LoopState) (card : PatientCard) (item : FileItem) (key sig : String) : LoopState :=
  let isBinary := item.is_text = false
  if isBinary ∧ force = false ∧ tp = "" ∧ tf = "" ∧ cfg.binaryPerCycleLimit ≤ s.binCount then
    { s with
      localDocs := dictSet s.localDocs key
        (buildPendingRecord now card item (some sig)
          "Queued for upcoming cycle (binary extraction throttle)")
      rebound := s.rebound ++ [key] }
  else
    let r := extractDocumentText item
    let binInc := if item.is_text then 0 else 1
    if pyOr r.1 "" = "" then
      { s with
        localDocs := dictSet s.localDocs key
          (buildFailureRecord now card item (some sig) r.2.1 (pyOr r.2.2 "Extraction failed"))
        rebound := s.rebound ++ [key]
        binCount := s.binCount + binInc
        extractedKeys := s.extractedKeys ++ [key] }
    else
      { s with
        localDocs := dictSet s.localDocs key
          (buildDocumentRecord cfg now card item sig (pyOr r.1 "") r.2.1)
        rebound := s.rebound ++ [key]
        binCount := s.binCount + binInc
        extractedKeys := s.extractedKeys ++ [key] }

/-- The signature-comparison tail of the per-file loop body: refresh the
metadata in place on an unchanged indexed record, otherwise fall through to
the throttle/extract tail. -/
def processWithSignature (cfg : IndexerConfig) (force : Bool) (tp tf now : String)
    (s : LoopState) (card : PatientCard) (item : FileItem) (key sig : String) : LoopState :=
  match dictGet s.localDocs key with
  | some existing =>
    if force = false ∧ pyOr existing.signature "" = sig ∧ existing.status = "indexed" then
      let r' := refreshRecord card item existing
      { s with
        localDocs := dictSet s.localDocs key r'
        sharedDocs :=
          if s.rebound.contains key then s.sharedDocs
          else dictSet s.sharedDocs key r' }
    else processExtract cfg force tp tf now s card item key sig
  | none => processExtract cfg force tp tf now s card item key sig

/-- The body of the per-file loop of `run_index_cycle`. -/
def processFile (cfg : IndexerConfig) (force : Bool) (tp tf now : String)
    (s : LoopState) (card : PatientCard) (item : FileItem) : LoopState :=
  let fid := pyLower (pyStrip (pyOr item.file_id ""))
  if fid = "" then s
  else if isSearchable item = false then s
  else
    let pkey := pyLower (pyStrip (pyOr card.patient_key ""))
    let key := documentKey pkey fid
    let s1 := { s with searchableKeys := s.searchableKeys ++ [key] }
    if tp ≠ "" ∧ pkey ≠ tp then s1
    else if tf ≠ "" ∧ fid ≠ tf then s1
    else
      let rel := pyStrip (pyOr item.relative_path "")
      if rel = "" then s1
      else if item.fs_exists = false then
        { s1 with
          localDocs := dictSet s1.localDocs key
            (buildFailureRecord now card item none "none" "File is missing or outside vault root")
          rebound := s1.rebound ++ [key] }
      else
        match item.fs_signature with
        | none => s1
        | some sig => processWithSignature cfg force tp tf now s1 card item key sig

/-- Run the per-file loop over the flattened catalog, optionally raising an
injected unexpected exception (message `m`) just before the `k`-th file.
This models `except Exception` at the cycle boundary: any statement of the
loop body may raise; the observable granularity is which files completed
processing before the exception. -/
def runFilesExc (cfg : IndexerConfig) (force : Bool) (tp tf now : String) :
    Option (Nat × String) → List (PatientCard × FileItem) → LoopState →
    LoopState × Option String
  | _, [], s => (s, none)
  | some (0, m), _ :: _, s => (s, some m)
  | some (k + 1, m), p :: rest, s =>
    runFilesExc cfg force tp tf now (some (k, m)) rest (processFile cfg force tp tf now s p.1 p.2)
  | none, p :: rest, s =>
    runFilesExc cfg force tp tf now none rest (processFile cfg force tp tf now s p.1 p.2)

/-- Everything observable about one `run_index_cycle` call: the state that
is persisted by `_save_index` (equal to `self._index` at save time), the
extraction-pipeline invocations, and — for the exception path — the working
copy of the documents at the moment the exception was raised
(specification-only, to talk about what the aborted cycle had accumulated). -/
structure CycleOutput where
  state : IndexState
  extractedKeys : List String
  localAtStop : List (String × DocRecord)
  raised : Bool
  deriving Repr, DecidableEq

structure CycleInput where
  force : Bool
  patientKey : Option String
  fileId : Option String
  catalog : List CatalogEntry
  cycleStart : String
  cycleFinish : String
  excAt : Option (Nat × String)
  deriving Repr, DecidableEq

/-- Embedding of `run_index_cycle` (the body guarded by the cycle lock).
The `excAt` injection covers the `except Exception` path: an exception
raised anywhere in the loop (e.g. out of `build_patient_catalog` with
`excAt = some (0, m)`, or mid-loop from a temp-directory or OS failure). -/
def runIndexCycle (cfg : IndexerConfig) (st : IndexState) (inp : CycleInput) : CycleOutput :=
  let st1 := { st with last_cycle_started_at := some inp.cycleStart, last_cycle_error := none }
  let tp := pyLower (pyStrip (pyOr inp.patientKey ""))
  let tf := pyLower (pyStrip (pyOr inp.fileId ""))
  let s0 : LoopState :=
    { localDocs := st1.documents, sharedDocs := st1.documents, rebound := []
      searchableKeys := [], binCount := 0, extractedKeys := [] }
  let flat := flattenCatalog inp.catalog
  let run := runFilesExc cfg inp.force tp tf inp.cycleStart inp.excAt flat s0
  match run.2 with
  | some m =>
    { state :=
        { st1 with
          documents := run.1.sharedDocs
          last_cycle_finished_at := some inp.cycleFinish
          last_cycle_error := some m }
      extractedKeys := run.1.extractedKeys
      localAtStop := run.1.localDocs
      raised := true }
  | none =>
    let docs :=
      if tp = "" ∧ tf = "" then
        run.1.localDocs.filter (fun kv => run.1.searchableKeys.contains kv.1)
      else run.1.localDocs
    { state :=
        { st1 with
          documents := docs
          updated_at := some inp.cycleFinish
          last_cycle_finished_at := some inp.cycleFinish
          last_cycle_error := none }
      extractedKeys := run.1.extractedKeys
      localAtStop := docs
      raised := false }

/-! ### Search (`PatientDocumentIndexer.search`) -/

structure SearchHit where
  patient_key : Option String
  patient_display_name : Option String
  study_id : Option String
  case_bucket : Option String
  svt_status : Option String
  file_id : Option String
  file_name : String
  relative_path : Option String
  category : Option String
  score : Nat
  snippet : String
  updated_at : Option String
  deriving Repr, DecidableEq

/-- Embedding of `_build_snippet` (default radius 160). -/
def buildSnippet (text : String) (tokens : List String) : String :=
  let lowered := pyLower text
  let firstIndex := tokens.foldl
    (fun acc t =>
      match strFind lowered t with
      | none => acc
      | some i =>
        match acc with
        | none => some i
        | some j => if i < j then some i else some j)
    none
  match firstIndex with
  | none => pyCollapseWs (pyTake text 320)
  | some fi =>
    let start := fi - 160
    let stop := min (fi + 160) text.data.length
    pyCollapseWs ⟨(text.data.drop start).take (stop - start)⟩

/-- Query tokenisation: `query.strip().lower().split()`. -/
def searchTokens (query : String) : List String := pySplitWs (pyLower (pyStrip query))

/-- The per-document body of the `search` loop: all guards, the score, and
the assembled match row. -/
def searchMatchDoc (tokens : List String) (target : String) (d : DocRecord) : Option SearchHit :=
  if d.status ≠ "indexed" then none
  else if target ≠ "" ∧ pyLower (pyOr d.patient_key "") ≠ target then none
  else if d.text = "" then none
  else
    let fileName := pyOr d.file_name ""
    let blob := pyLower (fileName ++ "\n" ++ d.text)
    if (tokens.all (fun t => strContainsB blob t)) = false then none
    else
      let score := tokens.foldl
        (fun acc t => acc + strCount blob t + (if strContainsB (pyLower fileName) t then 5 else 0)) 0
      some
        { patient_key := d.patient_key
          patient_display_name := d.patient_display_name
          study_id := d.study_id
          case_bucket := d.case_bucket
          svt_status := d.svt_status
          file_id := d.file_id
          file_name := fileName
          relative_path := d.relative_path
          category := d.category
          score := score
          snippet := buildSnippet d.text tokens
          updated_at := d.updated_at }

/-- One match may precede another when its sort key
`(int(score), str(updated_at or ""))` is lexicographically at least as
large.  `List.insertionSort` with this relation is a stable descending
sort, which agrees with CPython's stable `list.sort(key=..., reverse=True)`. -/
def hitRel (a b : SearchHit) : Prop :=
  b.score < a.score ∨ (b.score = a.score ∧ pyOr b.updated_at "" ≤ pyOr a.updated_at "")

instance : DecidableRel hitRel := fun a b => by unfold hitRel; exact inferInstance

instance : IsTotal SearchHit hitRel :=
  ⟨fun a b => by
    rcases lt_trichotomy a.score b.score with h | h | h
    · exact Or.inr (Or.inl h)
    · rcases le_total (pyOr b.updated_at "") (pyOr a.updated_at "") with hu | hu
      · exact Or.inl (Or.inr ⟨h.symm, hu⟩)
      · exact Or.inr (Or.inr ⟨h, hu⟩)
    · exact Or.inl (Or.inl h)⟩

instance : IsTrans SearchHit hitRel :=
  ⟨fun a b c hab hbc => by
    rcases hab with h1 | ⟨e1, u1⟩ <;> rcases hbc with h2 | ⟨e2, u2⟩
    · exact Or.inl (h2.trans h1)
    · exact Or.inl (by rw [e2]; exact h1)
    · exact Or.inl (by rw [← e1]; exact h2)
    · exact Or.inr ⟨e2.trans e1, u2.trans u1⟩⟩

/-- Python `lst[: max(1, min(limit, cap))]` with an `int` limit. -/
def pyClampLimit (limit cap : Int) : Nat := (max 1 (min limit cap)).toNat

/-- The `search` pipeline before the final limit slice (the early returns
for a blank query produce `[]`, on which the slice is a no-op, so factoring
the slice out below is value-preserving). -/
def searchAll (idx : IndexState) (query : String) (patientKey : Option String) :
    List SearchHit :=
  let qt := pyLower (pyStrip query)
  if qt = "" then []
  else
    let tokens := pySplitWs qt
    if tokens.isEmpty then []
    else
      let target := pyLower (pyStrip (pyOr patientKey ""))
      let found := (idx.documents.map (fun kv => kv.2)).filterMap (searchMatchDoc tokens target)
      found.insertionSort hitRel

/-- Embedding of `search(query, patient_key, limit)`. -/
def searchIndex (idx : IndexState) (query : String) (patientKey : Option String)
    (limit : Int) : List SearchHit :=
  (searchAll idx query patientKey).take (pyClampLimit limit 200)

/-! ### Status (`PatientDocumentIndexer.status`) -/

structure StatusResult where
  documents_total : Nat
  documents_indexed : Nat
  documents_failed : Nat
  documents_pending : Int
  last_cycle_started_at : Option String
  last_cycle_finished_at : Option String
  last_cycle_error : Option String
  updated_at : Option String
  scan_interval_sec : ℚ
  marker_command : String
  binary_per_cycle_limit : Nat
  running : Bool
  deriving Repr, DecidableEq

/-- Embedding of `status()`.  `running` reflects the liveness of the
background thread, which is instance state, not persisted state. -/
def statusOf (cfg : IndexerConfig) (idx : IndexState) (running : Bool) : StatusResult :=
  let documents := idx.documents.map (fun kv => kv.2)
  let indexed := (documents.filter (fun r => decide (r.status = "indexed"))).length
  let failed := (documents.filter (fun r => decide (r.status = "failed"))).length
  { documents_total := documents.length
    documents_indexed := indexed
    documents_failed := failed
    documents_pending := max ((documents.length : Int) - indexed - failed) 0
    last_cycle_started_at := idx.last_cycle_started_at
    last_cycle_finished_at := idx.last_cycle_finished_at
    last_cycle_error := idx.last_cycle_error
    updated_at := idx.updated_at
    scan_interval_sec := cfg.scan_interval_sec
    marker_command := cfg.marker_command
    binary_per_cycle_limit := cfg.binaryPerCycleLimit
    running := running }

/-! ### Index persistence

The durable artifact is the parsed JSON tree written by `_save_index`
(whole-file rewrite).  `json.dumps(..., ensure_ascii=True)` followed by
`json.loads` is the identity on these trees (strings, null, integers,
booleans, insertion-ordered objects), so the artifact is modelled at tree
level and the byte encoding is not re-modelled.  `loadIndex` mirrors the
field extraction of `_load_index` on a tree produced by `_save_index`; the
defensive branches for corrupt artifacts cannot fire on such trees. -/

structure IndexArtifact where
  updated_at : Option String
  last_cycle_started_at : Option String
  last_cycle_finished_at : Option String
  last_cycle_error : Option String
  documents : List (String × DocRecord)
  deriving Repr, DecidableEq

def saveIndex (st : IndexState) : IndexArtifact :=
  { updated_at := st.updated_at
    last_cycle_started_at := st.last_cycle_started_at
    last_cycle_finished_at := st.last_cycle_finished_at
    last_cycle_error := st.last_cycle_error
    documents := st.documents }

def loadIndex (a : IndexArtifact) : IndexState :=
  { updated_at := a.updated_at
    last_cycle_started_at := a.last_cycle_started_at
    last_cycle_finished_at := a.last_cycle_finished_at
    last_cycle_error := a.last_cycle_error
    documents := a.documents }

/-! ### Attachment-assist job manager (`attachment_assist_jobs.py`) -/

def pyUpper (s : String) : String := ⟨s.data.map Char.toUpper⟩

structure ReviewRecord where
  status : String
  decision : Option String
  reviewed_at : Option String
  reviewer_note : Option String
  applied_payload : Option (List (String × String))
  deriving Repr, DecidableEq

structure UploadedFile where
  file_name : String
  stored_path : String
  size_bytes : Int
  deriving Repr, DecidableEq

/-- One attachment-assist job.  `result` is the opaque analysis payload
(its internal shape is irrelevant to the claims). -/
structure Job where
  job_id : String
  status : String
  sectionName : String
  patient_id : Option String
  created_at : String
  updated_at : String
  started_at : Option String
  finished_at : Option String
  error : Option String
  uploaded_file : UploadedFile
  result : Option String
  review : ReviewRecord
  deriving Repr, DecidableEq

/-- Manager state: the jobs map, the manager-level `_updated_at`, and the
pending-work queue. -/
structure JobsState where
  jobs : List (String × Job)
  updated_at : Option String
  queue : List String
  deriving Repr, DecidableEq

/-- The durable job-log artifact (parsed JSON tree, as for the index). -/
structure JobsArtifact where
  updated_at : Option String
  jobs : List (String × Job)
  deriving Repr, DecidableEq

def saveJobs (m : JobsState) : JobsArtifact :=
  { updated_at := m.updated_at, jobs := m.jobs }

/-- Per-entry transformation of `_load`: reattach the key as `job_id`, and
reset `queued`/`processing` jobs to `queued` with a fresh `updated_at`. -/
def loadJobEntry (now : String) (kv : String × Job) : String × Job :=
  let j := { kv.2 with job_id := kv.1 }
  let st := pyLower (pyStrip j.status)
  if st = "queued" ∨ st = "processing" then
    (kv.1, { j with status := "queued", updated_at := now })
  else (kv.1, j)

/-- Ids re-enqueued by `_load` (jobs found in `queued`/`processing` state). -/
def requeuedIds (a : JobsArtifact) : List String :=
  (a.jobs.filter (fun kv =>
    let st := pyLower (pyStrip kv.2.status)
    decide (st = "queued" ∨ st = "processing"))).map (fun kv => kv.1)

/-- Embedding of `AttachmentAssistJobManager._load` applied to an artifact
tree (fresh instance construction; `now` is the load-time timestamp). -/
def loadJobs (a : JobsArtifact) (now : String) : JobsState :=
  { jobs := a.jobs.map (loadJobEntry now)
    updated_at := pyNoneIfEmpty (pyOr a.updated_at "")
    queue := requeuedIds a }

/-- Sort relation of `list_jobs` (`created_at`, then `job_id`, descending),
again matching CPython's stable reverse sort. -/
def jobRel (a b : Job) : Prop :=
  b.created_at < a.created_at ∨ (b.created_at = a.created_at ∧ b.job_id ≤ a.job_id)

instance : DecidableRel jobRel := fun a b => by unfold jobRel; exact inferInstance

instance : IsTotal Job jobRel :=
  ⟨fun a b => by
    rcases lt_trichotomy a.created_at b.created_at with h | h | h
    · exact Or.inr (Or.inl h)
    · rcases le_total b.job_id a.job_id with hu | hu
      · exact Or.inl (Or.inr ⟨h.symm, hu⟩)
      · exact Or.inr (Or.inr ⟨h, hu⟩)
    · exact Or.inl (Or.inl h)⟩

instance : IsTrans Job jobRel :=
  ⟨fun a b c hab hbc => by
    rcases hab with h1 | ⟨e1, u1⟩ <;> rcases hbc with h2 | ⟨e2, u2⟩
    · exact Or.inl (h2.trans h1)
    · exact Or.inl (by rw [e2]; exact h1)
    · exact Or.inl (by rw [← e1]; exact h2)
    · exact Or.inr ⟨e2.trans e1, u2.trans u1⟩⟩

/-- Embedding of `list_jobs(patient_id, status, limit)`. -/
def listJobs (m : JobsState) (patientId : Option String) (status : Option String)
    (limit : Int) : List Job :=
  let tokenPatient := pyUpper (pyStrip (pyOr patientId ""))
  let tokenStatus := pyLower (pyStrip (pyOr status ""))
  let rows := (m.jobs.map (fun kv => kv.2)).filter (fun j =>
    decide (¬(tokenPatient ≠ "" ∧ pyUpper (pyOr j.patient_id "") ≠ tokenPatient) ∧
            ¬(tokenStatus ≠ "" ∧ pyLower j.status ≠ tokenStatus)))
  (rows.insertionSort jobRel).take (pyClampLimit limit 300)

/-- Python exception classes raised by `set_review`: `KeyError` is the
not-found class, `ValueError` the validation/conflict class (distinguished
further by message). -/
inductive PyErr where
  | keyError (msg : String)
  | valueError (msg : String)
  deriving Repr, DecidableEq

/-- Observables of one `set_review` call: the returned job or the raised
exception, the jobs map afterwards, the manager `_updated_at`, and the
artifact written by `_save` (`none` when no save happened). -/
structure SetReviewOut where
  result : Except PyErr Job
  jobs : List (String × Job)
  updated_at : Option String
  saved : Option JobsArtifact
  deriving DecidableEq

/-- The job mutation of a successful `set_review` call: `review.update({...})`
followed by the `updated_at` stamp. -/
def reviewedJob (nd now : String) (reviewerNote : Option String)
    (appliedPayload : Option (List (String × String))) (job : Job) : Job :=
  { job with
    review :=
      { status := nd
        decision := some nd
        reviewed_at := some now
        reviewer_note := pyNoneIfEmpty (pyStrip (pyOr reviewerNote ""))
        applied_payload := some (appliedPayload.getD []) }
    updated_at := now }

/-- Embedding of `set_review(job_id, decision, reviewer_note,
applied_payload)`.  The two `_now_iso()` readings inside one call are
modelled as the single timestamp `now`. -/
def setReview (m : JobsState) (now : String) (jobId decision : String)
    (reviewerNote : Option String)
    (appliedPayload : Option (List (String × String))) : SetReviewOut :=
  let token := pyStrip jobId
  if token = "" then
    { result := .error (.keyError "job_id is required")
      jobs := m.jobs, updated_at := m.updated_at, saved := none }
  else
    let nd := pyLower (pyStrip decision)
    if ¬(nd = "accepted" ∨ nd = "rejected") then
      { result := .error (.valueError "decision must be \x27accepted\x27 or \x27rejected\x27")
        jobs := m.jobs, updated_at := m.updated_at, saved := none }
    else
      match dictGet m.jobs token with
      | none =>
        { result := .error (.keyError ("Job not found: " ++ token))
          jobs := m.jobs, updated_at := m.updated_at, saved := none }
      | some job =>
        if job.status ≠ "completed" then
          { result := .error (.valueError "Review can only be recorded for completed jobs")
            jobs := m.jobs, updated_at := m.updated_at, saved := none }
        else
          let job' := reviewedJob nd now reviewerNote appliedPayload job
          let jobs' := dictSet m.jobs token job'
          { result := .ok job'
            jobs := jobs'
            updated_at := some now
            saved := some (saveJobs { jobs := jobs', updated_at := some now, queue := m.queue }) }

/-! ### Metric points over documents -/

structure MetricPoint where
  source_date : Option String
  file_id : Option String
  file_name : Option String
  relative_path : Option String
  value : Dec
  status : String
  line : String
  deriving Repr, DecidableEq

/-- Embedding of `_extract_metric_point(metric, document, source_date)`. -/
def extractMetricPoint (m : LabMetric) (doc : DocRecord) (sourceDate : Option String) :
    Option MetricPoint :=
  if doc.status ≠ "indexed" then none
  else if doc.text = "" then none
  else if m.patterns.isEmpty then none
  else
    (pySplitlines doc.text).findSome? (fun raw =>
      (metricLineStep m raw).map (fun v =>
        { source_date := sourceDate
          file_id := doc.file_id
          file_name := doc.file_name
          relative_path := doc.relative_path
          value := v.1
          status := v.2.1
          line := v.2.2 }))

/-! ### Dictionary lemmas -/

theorem dictGet_eq_none_of_not_mem {α : Type} {l : List (String × α)} {k : String}
    (h : ∀ kv ∈ l, kv.1 ≠ k) : dictGet l k = none := by
  induction l with
  | nil => rfl
  | cons kv rest ih =>
    show (if kv.1 = k then some kv.2 else dictGet rest k) = none
    rw [if_neg (h kv (List.mem_cons_self kv rest))]
    exact ih fun kv' h' => h kv' (List.mem_cons_of_mem _ h')

theorem dictGet_dictSet_self {α : Type} (l : List (String × α)) (k : String) (v : α) :
    dictGet (dictSet l k v) k = some v := by
  induction l with
  | nil => simp [dictSet, dictGet]
  | cons kv rest ih =>
    by_cases h : kv.1 = k
    · simp [dictSet, dictGet, h]
    · show dictGet (if kv.1 = k then (k, v) :: rest else kv :: dictSet rest k v) k = some v
      rw [if_neg h]
      show (if kv.1 = k then some kv.2 else dictGet (dictSet rest k v) k) = some v
      rw [if_neg h]
      exact ih

theorem dictGet_dictSet_ne {α : Type} (l : List (String × α)) (k k' : String) (v : α)
    (h : k ≠ k') : dictGet (dictSet l k v) k' = dictGet l k' := by
  induction l with
  | nil => simp [dictSet, dictGet, h]
  | cons kv rest ih =>
    by_cases hk : kv.1 = k
    · show dictGet (if kv.1 = k then (k, v) :: rest else kv :: dictSet rest k v) k' =
        (if kv.1 = k' then some kv.2 else dictGet rest k')
      rw [if_pos hk]
      show (if k = k' then some v else dictGet rest k') =
        (if kv.1 = k' then some kv.2 else dictGet rest k')
      rw [if_neg h, if_neg (hk ▸ h)]
    · show dictGet (if kv.1 = k then (k, v) :: rest else kv :: dictSet rest k v) k' =
        (if kv.1 = k' then some kv.2 else dictGet rest k')
      rw [if_neg hk]
      show (if kv.1 = k' then some kv.2 else dictGet (dictSet rest k v) k') =
        (if kv.1 = k' then some kv.2 else dictGet rest k')
      by_cases hk' : kv.1 = k'
      · rw [if_pos hk', if_pos hk']
      · rw [if_neg hk', if_neg hk', ih]

theorem dictSet_eq_self_of_get {α : Type} {l : List (String × α)} {k : String} {v : α}
    (h : dictGet l k = some v) : dictSet l k v = l := by
  induction l with
  | nil => simp [dictGet] at h
  | cons kv rest ih =>
    by_cases hk : kv.1 = k
    · have : some kv.2 = some v := by
        have h' : (if kv.1 = k then some kv.2 else dictGet rest k) = some v := h
        rwa [if_pos hk] at h'
      show (if kv.1 = k then (k, v) :: rest else kv :: dictSet rest k v) = kv :: rest
      rw [if_pos hk]
      have hv : kv.2 = v := by injection this
      cases kv
      simp_all
    · have h' : dictGet rest k = some v := by
        have h'' : (if kv.1 = k then some kv.2 else dictGet rest k) = some v := h
        rwa [if_neg hk] at h''
      show (if kv.1 = k then (k, v) :: rest else kv :: dictSet rest k v) = kv :: rest
      rw [if_neg hk, ih h']

/-- Membership of values after a `dictSet`: every value is the new one or
one already present. -/
theorem mem_of_mem_dictSet {α : Type} {l : List (String × α)} {k : String} {v : α}
    {kv : String × α} (h : kv ∈ dictSet l k v) : kv = (k, v) ∨ kv ∈ l := by
  induction l with
  | nil => simpa [dictSet] using h
  | cons hd rest ih =>
    by_cases hk : hd.1 = k
    · rw [show dictSet (hd :: rest) k v = (k, v) :: rest by simp [dictSet, hk]] at h
      rcases List.mem_cons.mp h with h | h
      · exact Or.inl h
      · exact Or.inr (List.mem_cons_of_mem _ h)
    · rw [show dictSet (hd :: rest) k v = hd :: dictSet rest k v by simp [dictSet, hk]] at h
      rcases List.mem_cons.mp h with h | h
      · exact Or.inr (h ▸ List.mem_cons_self hd rest)
      · rcases ih h with h | h
        · exact Or.inl h
        · exact Or.inr (List.mem_cons_of_mem _ h)

example : pySplitWs "  a  bc " = ["a", "bc"] := by decide

/-! ### Concrete fixtures used by witnesses and counterexamples -/

def emptyIndex : IndexState :=
  { updated_at := none, last_cycle_started_at := none, last_cycle_finished_at := none
    last_cycle_error := none, documents := [] }

/-- A minimal indexed lab document with the given extracted text. -/
def fixtureDoc (text : String) : DocRecord :=
  { patient_key := some "p1", patient_display_name := some "Patient One"
    study_id := some "S1", case_bucket := some "b", svt_status := some "no"
    file_id := some "f1", file_name := some "report.txt"
    relative_path := some "p1/report.txt", category := some "lab_report"
    mime_type := some "text/plain", extension := some ".txt"
    updated_at := some "2024-01-01T00:00:00+00:00", size_bytes := some 10
    signature := some "10:1", status := "indexed", error := none
    extractor := "native_text", indexed_at := "2024-01-01T00:00:00+00:00"
    text := text, text_chars := text.data.length, truncated := false }

def fixtureJob : Job :=
  { job_id := "ajob_1", status := "completed", sectionName := "lab"
    patient_id := some "P1", created_at := "2024-01-01T00:00:00+00:00"
    updated_at := "2024-01-01T00:00:01+00:00", started_at := none
    finished_at := none, error := none
    uploaded_file := { file_name := "a.pdf", stored_path := "/uploads/a.pdf", size_bytes := 3 }
    result := some "payload", review := ⟨"pending_review", none, none, none, none⟩ }

def fixtureJobsState : JobsState :=
  { jobs := [("ajob_1", fixtureJob)], updated_at := some "2024-01-01T00:00:01+00:00", queue := [] }

/-! ### C10 — search result cap -/

/-- C10: for every query and requested limit, `search` returns at most
`max(1, min(limit, 200))` results, hence never more than 200; and a zero or
negative requested limit behaves exactly like a limit of one, still
permitting up to one result rather than an empty list. -/
theorem c10_search_result_cap (idx : IndexState) (query : String)
    (patientKey : Option String) (limit : Int) :
    (searchIndex idx query patientKey limit).length ≤ pyClampLimit limit 200 ∧
    (searchIndex idx query patientKey limit).length ≤ 200 ∧
    (limit ≤ 0 → searchIndex idx query patientKey limit = searchIndex idx query patientKey 1) := by
  refine ⟨?_, ?_, ?_⟩
  · rw [searchIndex, List.length_take]
    exact min_le_left _ _
  · rw [searchIndex, List.length_take]
    refine le_trans (min_le_left _ _) ?_
    exact Int.toNat_le.mpr (max_le (by norm_num) (min_le_right _ _))
  · intro h
    rw [searchIndex, searchIndex]
    have h1 : min limit (200 : Int) = limit := min_eq_left (by omega)
    have h2 : max (1 : Int) limit = 1 := max_eq_left (by omega)
    rw [pyClampLimit, h1, h2]
    rfl

theorem c10_search_result_cap_witness :
    searchIndex emptyIndex "q" none (-3) = searchIndex emptyIndex "q" none 1 :=
  (c10_search_result_cap emptyIndex "q" none (-3)).2.2 (by norm_num)

/-! ### C7 — set_review contract -/

/-- C7: `set_review` succeeds exactly when the (stripped) job id names an
existing job, the (case-folded) decision is `accepted` or `rejected`, and
that job's status is `completed`; a blank id raises the not-found
(`KeyError`) class immediately, an invalid decision raises the
invalid-argument `ValueError`, an unknown id raises the not-found
`KeyError`, and a non-completed job raises the invalid-state `ValueError`;
on success the review sub-record is updated and the state persisted, and on
every failure the jobs map is left unchanged and nothing is saved. -/
theorem c7_set_review (m : JobsState) (now jobId decision : String)
    (note : Option String) (payload : Option (List (String × String)))
    (hkeys : ∀ kv ∈ m.jobs, kv.1 ≠ "") :
    ((∃ j, (setReview m now jobId decision note payload).result = .ok j) ↔
      (∃ j, dictGet m.jobs (pyStrip jobId) = some j ∧
        (pyLower (pyStrip decision) = "accepted" ∨ pyLower (pyStrip decision) = "rejected") ∧
        j.status = "completed")) ∧
    (pyStrip jobId = "" →
      (setReview m now jobId decision note payload).result =
        .error (.keyError "job_id is required")) ∧
    (pyStrip jobId ≠ "" →
      ¬(pyLower (pyStrip decision) = "accepted" ∨ pyLower (pyStrip decision) = "rejected") →
      (setReview m now jobId decision note payload).result =
        .error (.valueError "decision must be \x27accepted\x27 or \x27rejected\x27")) ∧
    ((pyLower (pyStrip decision) = "accepted" ∨ pyLower (pyStrip decision) = "rejected") →
      dictGet m.jobs (pyStrip jobId) = none →
      ∃ msg, (setReview m now jobId decision note payload).result = .error (.keyError msg)) ∧
    ((pyLower (pyStrip decision) = "accepted" ∨ pyLower (pyStrip decision) = "rejected") →
      ∀ j, dictGet m.jobs (pyStrip jobId) = some j → j.status ≠ "completed" →
      (setReview m now jobId decision note payload).result =
        .error (.valueError "Review can only be recorded for completed jobs")) ∧
    (∀ j, (setReview m now jobId decision note payload).result = .ok j →
      j.review.status = pyLower (pyStrip decision) ∧
      j.review.decision = some (pyLower (pyStrip decision)) ∧
      j.review.reviewed_at = some now ∧
      j.updated_at = now ∧
      dictGet (setReview m now jobId decision note payload).jobs (pyStrip jobId) = some j ∧
      (setReview m now jobId decision note payload).saved =
        some (saveJobs { jobs := (setReview m now jobId decision note payload).jobs
                         updated_at := some now, queue := m.queue })) ∧
    ((∃ e, (setReview m now jobId decision note payload).result = .error e) →
      (setReview m now jobId decision note payload).jobs = m.jobs ∧
      (setReview m now jobId decision note payload).updated_at = m.updated_at ∧
      (setReview m now jobId decision note payload).saved = none) := by
  by_cases ht : pyStrip jobId = ""
  · have hnone : dictGet m.jobs (pyStrip jobId) = none := by
      rw [ht]
      exact dictGet_eq_none_of_not_mem fun kv h => hkeys kv h
    have hout : setReview m now jobId decision note payload =
        { result := .error (.keyError "job_id is required"), jobs := m.jobs
          updated_at := m.updated_at, saved := none } := by
      simp only [setReview]
      rw [if_pos ht]
    refine ⟨?_, ?_, ?_, ?_, ?_, ?_, ?_⟩
    · rw [hout]
      simp [hnone]
    · intro _; rw [hout]
    · intro h; exact absurd ht h
    · intro _ _; rw [hout]; exact ⟨_, rfl⟩
    · intro _ j hj _
      rw [hnone] at hj
      cases hj
    · intro j hok
      rw [hout] at hok
      cases hok
    · intro _
      rw [hout]
      exact ⟨rfl, rfl, rfl⟩
  · by_cases hd : pyLower (pyStrip decision) = "accepted" ∨ pyLower (pyStrip decision) = "rejected"
    · cases hj : dictGet m.jobs (pyStrip jobId) with
      | none =>
        have hout : setReview m now jobId decision note payload =
            { result := .error (.keyError ("Job not found: " ++ pyStrip jobId)), jobs := m.jobs
              updated_at := m.updated_at, saved := none } := by
          simp only [setReview]
          rw [if_neg ht, if_neg (not_not_intro hd), hj]
        refine ⟨?_, ?_, ?_, ?_, ?_, ?_, ?_⟩
        · rw [hout]
          simp
        · intro h; exact absurd h ht
        · intro _ h; exact absurd hd h
        · intro _ _; rw [hout]; exact ⟨_, rfl⟩
        · intro _ j hj' _
          cases hj'
        · intro j hok
          rw [hout] at hok
          cases hok
        · intro _
          rw [hout]
          exact ⟨rfl, rfl, rfl⟩
      | some job =>
        by_cases hs : job.status = "completed"
        · have hout : setReview m now jobId decision note payload =
              { result := .ok (reviewedJob (pyLower (pyStrip decision)) now note payload job)
                jobs := dictSet m.jobs (pyStrip jobId)
                  (reviewedJob (pyLower (pyStrip decision)) now note payload job)
                updated_at := some now
                saved := some (saveJobs
                  { jobs := dictSet m.jobs (pyStrip jobId)
                      (reviewedJob (pyLower (pyStrip decision)) now note payload job)
                    updated_at := some now
                    queue := m.queue }) } := by
            simp only [setReview]
            rw [if_neg ht, if_neg (not_not_intro hd), hj]
            dsimp only
            rw [if_neg (not_not_intro hs)]
          refine ⟨?_, ?_, ?_, ?_, ?_, ?_, ?_⟩
          · constructor
            · intro _
              refine ⟨job, ?_, hd, hs⟩
              rfl
            · intro _; rw [hout]; exact ⟨_, rfl⟩
          · intro h; exact absurd h ht
          · intro _ h; exact absurd hd h
          · intro _ h
            cases h
          · intro _ j hj' hs'
            injection hj' with e
            exact absurd (e ▸ hs) hs'
          · intro j hok
            rw [hout] at hok
            injection hok with e
            subst e
            rw [hout]
            exact ⟨rfl, rfl, rfl, rfl, dictGet_dictSet_self .., rfl⟩
          · rintro ⟨e, he⟩
            rw [hout] at he
            cases he
        · have hout : setReview m now jobId decision note payload =
              { result := .error (.valueError "Review can only be recorded for completed jobs")
                jobs := m.jobs, updated_at := m.updated_at, saved := none } := by
            simp only [setReview]
            rw [if_neg ht, if_neg (not_not_intro hd), hj]
            dsimp only
            rw [if_pos hs]
          refine ⟨?_, ?_, ?_, ?_, ?_, ?_, ?_⟩
          · rw [hout]
            constructor
            · rintro ⟨j, hok⟩; cases hok
            · rintro ⟨j, hj', _, hs'⟩
              injection hj' with e
              exact absurd (e ▸ hs') hs
          · intro h; exact absurd h ht
          · intro _ h; exact absurd hd h
          · intro _ h
            cases h
          · intro _ _ _ _
            rw [hout]
          · intro j hok
            rw [hout] at hok
            cases hok
          · intro _
            rw [hout]
            exact ⟨rfl, rfl, rfl⟩
    · have hout : setReview m now jobId decision note payload =
          { result := .error (.valueError "decision must be \x27accepted\x27 or \x27rejected\x27")
            jobs := m.jobs, updated_at := m.updated_at, saved := none } := by
        simp only [setReview]
        rw [if_neg ht, if_pos hd]
      refine ⟨?_, ?_, ?_, ?_, ?_, ?_, ?_⟩
      · rw [hout]
        constructor
        · rintro ⟨j, hok⟩; cases hok
        · rintro ⟨j, _, hd', _⟩; exact absurd hd' hd
      · intro h; exact absurd h ht
      · intro _ _; rw [hout]
      · intro hd' _; exact absurd hd' hd
      · intro hd' _ _ _; exact absurd hd' hd
      · intro j hok
        rw [hout] at hok
        cases hok
      · intro _
        rw [hout]
        exact ⟨rfl, rfl, rfl⟩

theorem c7_set_review_witness :
    (∃ j, (setReview fixtureJobsState "t2" "ajob_1" "accepted" none none).result = .ok j) ∧
    (setReview fixtureJobsState "t2" "ajob_1" "accepted" "ok" none).result ≠
      .error (.keyError "job_id is required") :=
  ⟨((c7_set_review fixtureJobsState "t2" "ajob_1" "accepted" none none (by decide)).1).mpr
    ⟨fixtureJob, by decide, Or.inl (by decide), by decide⟩,
   by decide⟩

/-! ### C4 — numeric token selection after a pattern match -/

/-- Spec-side description of the amended C4: take the first plausible
numeric token (|value| ≤ 100000, thousands separators stripped) starting at
or after the match end; when no token at all starts at or after the match
end, fall back to the first plausible token anywhere in the line. -/
def specParseAfterMatch (line : String) (matchEnd : Nat) : Option Dec :=
  let toks := numFinditerD (pyRemoveCommas line)
  if (afterToks matchEnd toks).isEmpty then plausibleFirst toks
  else plausibleFirst (afterToks matchEnd toks)

theorem findSome_plausible_round (l : List (Nat × Dec)) :
    l.findSome? (fun p => if p.2.absGtCap then none else some (round2 p.2)) =
    (plausibleFirst l).map round2 := by
  induction l with
  | nil => rfl
  | cons hd tl ih =>
    by_cases h : hd.2.absGtCap = true
    · simp [plausibleFirst, List.findSome?_cons, h]
      simpa [plausibleFirst] using ih
    · simp [plausibleFirst, List.findSome?_cons, h]

/-- C4 (amended): both `_parse_metric_value_from_line` and
`_parse_number_after_match` return the first plausible numeric token at or
after the pattern match, but when the matching line has no numeric token at
or after the match they fall back to the first plausible token before the
match rather than returning nothing; the attachment-assist variant
additionally rounds to 2 decimals. -/
theorem c4_parse_after_match (line : String) (matchEnd : Nat) :
    parseMetricValueFromLine line matchEnd = specParseAfterMatch line matchEnd ∧
    parseNumberAfterMatch line matchEnd =
      (parseMetricValueFromLine line matchEnd).map round2 := by
  constructor
  · by_cases h0 : line = ""
    · subst h0
      rfl
    · rw [parseMetricValueFromLine, if_neg h0, specParseAfterMatch]
      by_cases hc : (numFinditerD (pyRemoveCommas line)).isEmpty = true
      · have he : numFinditerD (pyRemoveCommas line) = [] := List.isEmpty_iff.mp hc
        simp [he, afterToks, plausibleFirst]
      · simp only [hc, Bool.false_eq_true, if_false]
        by_cases hp : (afterToks matchEnd (numFinditerD (pyRemoveCommas line))).isEmpty = true
        · rw [if_pos hp, if_pos hp]
        · rw [if_neg hp, if_neg hp]
  · by_cases h0 : line = ""
    · subst h0
      rfl
    · rw [parseNumberAfterMatch, parseMetricValueFromLine, if_neg h0]
      by_cases hc : (numFinditerD (pyRemoveCommas line)).isEmpty = true
      · simp [hc]
      · simp only [hc, Bool.false_eq_true, if_false]
        exact findSome_plausible_round _

/-- C4 counterexample: for the line `"12 Hb"` the hemoglobin pattern
matches at positions 3–5 (`match.end() = 5`), the only numeric token starts
at position 0 — strictly before the match — yet the extractor still takes
the value 12 from before the match, where the claim requires that no value
be taken. -/
theorem c4_counterexample :
    searchAlts ["hb", "hgb", "haemoglobin", "hemoglobin"] "12 Hb" = some 5 ∧
    numFinditerD (pyRemoveCommas "12 Hb") = [(0, ⟨12, 0⟩)] ∧
    parseMetricValueFromLine "12 Hb" 5 = some ⟨12, 0⟩ ∧
    (extractMetricPoint hbMetric (fixtureDoc "12 Hb") none).map (fun p => p.value) =
      some ⟨1200, 2⟩ ∧
    Dec.toRat ⟨1200, 2⟩ = 12 := by
  refine ⟨by decide, by decide, by decide, by decide, ?_⟩
  norm_num [Dec.toRat]

/-! ### C9 — concrete lab-line extraction -/

theorem findSome_append_of_none {α β : Type} (f : α → Option β) (l1 l2 : List α)
    (h : ∀ x ∈ l1, f x = none) :
    (l1 ++ l2).findSome? f = l2.findSome? f := by
  induction l1 with
  | nil => rfl
  | cons hd tl ih =>
    rw [List.cons_append, List.findSome?_cons, h hd (List.mem_cons_self hd tl)]
    exact ih fun x hx => h x (List.mem_cons_of_mem _ hx)

/-- The first line (in scan order) that yields a metric value determines
the extracted point. -/
theorem extractMetricPoint_of_first_line (m : LabMetric) (doc : DocRecord)
    (pre rest : List String) (sd : Option String) (line : String) (v : Dec × String × String)
    (hstatus : doc.status = "indexed") (htext : doc.text ≠ "")
    (hpat : m.patterns.isEmpty = false)
    (hsplit : pySplitlines doc.text = pre ++ line :: rest)
    (hpre : ∀ l ∈ pre, metricLineStep m l = none)
    (hline : metricLineStep m line = some v) :
    extractMetricPoint m doc sd = some
      { source_date := sd, file_id := doc.file_id, file_name := doc.file_name
        relative_path := doc.relative_path, value := v.1, status := v.2.1, line := v.2.2 } := by
  rw [extractMetricPoint, if_neg (by simp [hstatus]), if_neg (by simp [htext]),
    if_neg (by simp [hpat]), hsplit]
  rw [findSome_append_of_none _ pre _ (fun l hl => by rw [hpre l hl]; rfl)]
  rw [List.findSome?_cons, hline]
  rfl

/-- C9 (amended): for any indexed document whose line scan reaches
`"Hb - 9.8 g/dL"` without an earlier line yielding a hemoglobin value, the
heuristic yields a hemoglobin point of value 9.8 (status `low`, below the
10.0 normal minimum); and symmetrically a scan reaching `"Platelets: 520"`
yields a platelets point of value 520 (status `high`, above the 450 normal
maximum).  (The original claim quantified over any text merely containing
the line; an earlier matching line can pre-empt it, see the
counterexample.) -/
theorem c9_lab_line_extraction :
    (∀ (doc : DocRecord) (pre rest : List String) (sd : Option String),
      doc.status = "indexed" → doc.text ≠ "" →
      pySplitlines doc.text = pre ++ "Hb - 9.8 g/dL" :: rest →
      (∀ l ∈ pre, metricLineStep hbMetric l = none) →
      ∃ p, extractMetricPoint hbMetric doc sd = some p ∧
        p.value = ⟨980, 2⟩ ∧ Dec.toRat p.value = 49 / 5 ∧ p.status = "low") ∧
    (∀ (doc : DocRecord) (pre rest : List String) (sd : Option String),
      doc.status = "indexed" → doc.text ≠ "" →
      pySplitlines doc.text = pre ++ "Platelets: 520" :: rest →
      (∀ l ∈ pre, metricLineStep plateletsMetric l = none) →
      ∃ p, extractMetricPoint plateletsMetric doc sd = some p ∧
        p.value = ⟨52000, 2⟩ ∧ Dec.toRat p.value = 520 ∧ p.status = "high") := by
  constructor
  · intro doc pre rest sd hstatus htext hsplit hpre
    refine ⟨_, extractMetricPoint_of_first_line hbMetric doc pre rest sd _
      (⟨980, 2⟩, "low", "Hb - 9.8 g/dL") hstatus htext (by decide) hsplit hpre (by decide),
      rfl, ?_, rfl⟩
    norm_num [Dec.toRat]
  · intro doc pre rest sd hstatus htext hsplit hpre
    refine ⟨_, extractMetricPoint_of_first_line plateletsMetric doc pre rest sd _
      (⟨52000, 2⟩, "high", "Platelets: 520") hstatus htext (by decide) hsplit hpre (by decide),
      rfl, ?_, rfl⟩
    norm_num [Dec.toRat]

theorem c9_lab_line_extraction_witness :
    (∃ p, extractMetricPoint hbMetric (fixtureDoc "Hb - 9.8 g/dL\nPlatelets: 520") none = some p ∧
      p.value = ⟨980, 2⟩ ∧ Dec.toRat p.value = 49 / 5 ∧ p.status = "low") ∧
    (∃ p, extractMetricPoint plateletsMetric (fixtureDoc "Hb - 9.8 g/dL\nPlatelets: 520") none = some p ∧
      p.value = ⟨52000, 2⟩ ∧ Dec.toRat p.value = 520 ∧ p.status = "high") :=
  ⟨c9_lab_line_extraction.1 (fixtureDoc "Hb - 9.8 g/dL\nPlatelets: 520") []
      ["Platelets: 520"] none (by decide) (by decide) (by decide) (by decide),
   c9_lab_line_extraction.2 (fixtureDoc "Hb - 9.8 g/dL\nPlatelets: 520")
      ["Hb - 9.8 g/dL"] [] none (by decide) (by decide) (by decide) (by decide)⟩

/-- C9 counterexample: the text `"Hb 12\nHb - 9.8 g/dL"` contains the line
`"Hb - 9.8 g/dL"`, yet the heuristic yields the hemoglobin value 12
(status `normal`) from the earlier matching line, not 9.8/`low` as the
claim requires for every text containing that line. -/
theorem c9_counterexample :
    (extractMetricPoint hbMetric (fixtureDoc "Hb 12\nHb - 9.8 g/dL") none).map
      (fun p => (p.value, p.status)) = some (⟨1200, 2⟩, "normal") ∧
    Dec.toRat ⟨1200, 2⟩ ≠ Dec.toRat ⟨980, 2⟩ := by
  refine ⟨by decide, ?_⟩
  norm_num [Dec.toRat]
example : pyCollapseWs " Hb  - 9.8  g/dL " = "Hb - 9.8 g/dL" := by decide
example : pySplitlines "a\nb\r\nc\n" = ["a", "b", "c"] := by decide
example : pyStrip "  x y\t" = "x y" := by decide
example : strCount "aaaa" "aa" = 2 := by decide
example : strContainsB "hello world" "lo w" = true := by decide
example : strFind "abcabc" "bc" = some 1 := by decide
example : pyLower "Hb - 9.8 G/DL" = "hb - 9.8 g/dl" := by decide

/-! ### C5 — search membership, scoring and ranking -/

/-- D1 of the claim's concrete scenario: the token appears once in the
filename and twice in the body. -/
def c5Doc1 : DocRecord :=
  { fixtureDoc "tok here and tok again" with
    file_id := some "d1", file_name := some "tok_report.txt"
    updated_at := some "2024-01-01T00:00:00+00:00" }

/-- D2: the token appears three times in the body only. -/
def c5Doc2 : DocRecord :=
  { fixtureDoc "tok tok tok" with
    file_id := some "d2", file_name := some "other.txt"
    updated_at := some "2024-02-01T00:00:00+00:00" }

def c5Index : IndexState :=
  { emptyIndex with documents := [("p1::d1", c5Doc1), ("p1::d2", c5Doc2)] }

/-- The claim's score: sum over tokens of occurrence counts in
filename-plus-text, plus a fixed bonus of 5 per token occurring in the
filename. -/
def claimScore (tokens : List String) (blob fileNameLower : String) : Nat :=
  (tokens.map (fun t => strCount blob t + (if strContainsB fileNameLower t then 5 else 0))).sum

theorem score_foldl_eq_sum (blob fn : String) (tokens : List String) : ∀ n : Nat,
    tokens.foldl (fun acc t => acc + strCount blob t + (if strContainsB fn t then 5 else 0)) n =
    n + claimScore tokens blob fn := by
  induction tokens with
  | nil => intro n; simp [claimScore]
  | cons hd tl ih =>
    intro n
    simp only [List.foldl_cons, claimScore, List.map_cons, List.sum_cons]
    rw [ih]
    simp only [claimScore]
    omega

/-- Characterisation of a successful per-document match in `search`. -/
theorem searchMatchDoc_some (tokens : List String) (target : String) (d : DocRecord)
    (hit : SearchHit) (h : searchMatchDoc tokens target d = some hit) :
    d.status = "indexed" ∧
    (∀ t ∈ tokens, strContainsB (pyLower (pyOr d.file_name "" ++ "\n" ++ d.text)) t = true) ∧
    hit.score = claimScore tokens (pyLower (pyOr d.file_name "" ++ "\n" ++ d.text))
      (pyLower (pyOr d.file_name "")) := by
  simp only [searchMatchDoc] at h
  by_cases h1 : d.status ≠ "indexed"
  · rw [if_pos h1] at h; cases h
  · rw [if_neg h1] at h
    by_cases h2 : target ≠ "" ∧ pyLower (pyOr d.patient_key "") ≠ target
    · rw [if_pos h2] at h; cases h
    · rw [if_neg h2] at h
      by_cases h3 : d.text = ""
      · rw [if_pos h3] at h; cases h
      · rw [if_neg h3] at h
        by_cases h4 : (tokens.all fun t =>
            strContainsB (pyLower (pyOr d.file_name "" ++ "\n" ++ d.text)) t) = false
        · rw [if_pos h4] at h; cases h
        · rw [if_neg h4] at h
          injection h with h
          subst h
          refine ⟨not_not.mp h1, ?_, ?_⟩
          · exact List.all_eq_true.mp (Bool.not_eq_false _ ▸ h4)
          · simpa using score_foldl_eq_sum
              (pyLower (pyOr d.file_name "" ++ "\n" ++ d.text))
              (pyLower (pyOr d.file_name "")) tokens 0

/-- C5: every search result comes from an indexed document whose
case-folded filename-plus-text contains every query token, and its score is
the claimed sum-plus-filename-bonus; results are sorted by (score,
updated_at) descending (ties broken by most recent `updated_at`); and on
the concrete pair D1 (token once in filename, twice in body, score 3+5=8)
and D2 (token three times in body only, score 3), both match a single-token
query and D1 ranks above D2. -/
theorem c5_search_ranking :
    (∀ (idx : IndexState) (query : String) (pk : Option String) (limit : Int) (hit : SearchHit),
      hit ∈ searchIndex idx query pk limit →
      ∃ d, d ∈ idx.documents.map (fun kv => kv.2) ∧
        d.status = "indexed" ∧
        (∀ t ∈ searchTokens query,
          strContainsB (pyLower (pyOr d.file_name "" ++ "\n" ++ d.text)) t = true) ∧
        hit.score = claimScore (searchTokens query)
          (pyLower (pyOr d.file_name "" ++ "\n" ++ d.text)) (pyLower (pyOr d.file_name ""))) ∧
    (∀ (idx : IndexState) (query : String) (pk : Option String) (limit : Int),
      List.Sorted hitRel (searchIndex idx query pk limit)) ∧
    (searchIndex c5Index "tok" none 50).map (fun h => (h.file_id, h.score)) =
      [(some "d1", 8), (some "d2", 3)] := by
  refine ⟨?_, ?_, ?_⟩
  · intro idx query pk limit hit hmem
    rw [searchIndex] at hmem
    have hmem2 := List.mem_of_mem_take hmem
    simp only [searchAll] at hmem2
    by_cases hq : pyLower (pyStrip query) = ""
    · rw [if_pos hq] at hmem2; simp at hmem2
    · rw [if_neg hq] at hmem2
      by_cases htok : (pySplitWs (pyLower (pyStrip query))).isEmpty = true
      · rw [if_pos htok] at hmem2; simp at hmem2
      · rw [if_neg htok] at hmem2
        rw [List.mem_insertionSort] at hmem2
        obtain ⟨d, hd, heq⟩ := List.mem_filterMap.mp hmem2
        obtain ⟨hstatus, hall, hscore⟩ := searchMatchDoc_some _ _ _ _ heq
        exact ⟨d, hd, hstatus, hall, hscore⟩
  · intro idx query pk limit
    rw [searchIndex]
    refine List.Pairwise.sublist (List.take_sublist _ _) ?_
    simp only [searchAll]
    by_cases hq : pyLower (pyStrip query) = ""
    · rw [if_pos hq]; exact List.sorted_nil
    · rw [if_neg hq]
      by_cases htok : (pySplitWs (pyLower (pyStrip query))).isEmpty = true
      · rw [if_pos htok]; exact List.sorted_nil
      · rw [if_neg htok]
        exact List.sorted_insertionSort hitRel _
  · decide

theorem c5_search_ranking_witness :
    ∃ d, d ∈ c5Index.documents.map (fun kv => kv.2) ∧
      d.status = "indexed" ∧
      (∀ t ∈ searchTokens "tok",
        strContainsB (pyLower (pyOr d.file_name "" ++ "\n" ++ d.text)) t = true) ∧
      ((searchIndex c5Index "tok" none 50).head (by decide)).score =
        claimScore (searchTokens "tok") (pyLower (pyOr d.file_name "" ++ "\n" ++ d.text))
          (pyLower (pyOr d.file_name "")) :=
  c5_search_ranking.1 c5Index "tok" none 50 _ (List.head_mem _)

/-! ### C6 — Document Record invariant -/

/-- The invariant of §3 of the spec: indexed records carry non-empty text
and a real extractor; failed records carry empty text and an error;
pending records carry empty text and the throttling reason. -/
def recordInvariant (r : DocRecord) : Prop :=
  (r.status = "indexed" →
    r.text ≠ "" ∧ r.extractor ≠ "queued" ∧ r.extractor ≠ "none" ∧ r.extractor ≠ "unsupported") ∧
  (r.status = "failed" → r.text = "" ∧ r.error ≠ none) ∧
  (r.status = "pending" →
    r.text = "" ∧ r.error = some "Queued for upcoming cycle (binary extraction throttle)")

instance (r : DocRecord) : Decidable (recordInvariant r) := by
  unfold recordInvariant
  infer_instance

theorem pyTake_ne_empty {s : String} {n : Nat} (hn : 1 ≤ n) (hs : s ≠ "") :
    pyTake s n ≠ "" := by
  intro h
  apply hs
  have hdata : s.data.take n = [] := congrArg String.data h
  rcases List.take_eq_nil_iff.mp hdata with h' | h'
  · omega
  · cases s
    simp_all

theorem mem_of_dictGet {α : Type} {l : List (String × α)} {k : String} {v : α}
    (h : dictGet l k = some v) : (k, v) ∈ l := by
  induction l with
  | nil => cases h
  | cons kv rest ih =>
    by_cases hk : kv.1 = k
    · have h' : (if kv.1 = k then some kv.2 else dictGet rest k) = some v := h
      rw [if_pos hk] at h'
      injection h' with h'
      cases kv
      simp_all
    · have h' : (if kv.1 = k then some kv.2 else dictGet rest k) = some v := h
      rw [if_neg hk] at h'
      exact List.mem_cons_of_mem _ (ih h')

theorem refreshRecord_inv (card : PatientCard) (item : FileItem) (r : DocRecord)
    (h : recordInvariant r) : recordInvariant (refreshRecord card item r) := h

/-- The extractor tag always comes from the fixed repertoire, and the
`unsupported` tag only occurs together with an absent text. -/
theorem extractDocumentText_shape (item : FileItem) :
    (extractDocumentText item).2.1 = "native_text" ∨ (extractDocumentText item).2.1 = "marker" ∨
    (extractDocumentText item).2.1 = "pdftotext" ∨ (extractDocumentText item).2.1 = "tesseract" ∨
    ((extractDocumentText item).1 = none ∧ (extractDocumentText item).2.1 = "unsupported") := by
  simp only [extractDocumentText]
  split
  · split
    · split <;> simp
    · simp
  · split
    · split
      · simp
      · split
        · split <;> simp
        · split <;> simp
    · simp

/-- A successful extraction never reports the `unsupported`, `queued` or
`none` extractor. -/
theorem extractDocumentText_extractor_ok (item : FileItem)
    (h : pyOr (extractDocumentText item).1 "" ≠ "") :
    (extractDocumentText item).2.1 ≠ "queued" ∧ (extractDocumentText item).2.1 ≠ "none" ∧
    (extractDocumentText item).2.1 ≠ "unsupported" := by
  rcases extractDocumentText_shape item with h1 | h1 | h1 | h1 | ⟨hn, h1⟩ <;> rw [h1]
  · exact ⟨by decide, by decide, by decide⟩
  · exact ⟨by decide, by decide, by decide⟩
  · exact ⟨by decide, by decide, by decide⟩
  · exact ⟨by decide, by decide, by decide⟩
  · rw [hn] at h
    exact absurd rfl h

theorem buildDocumentRecord_inv (cfg : IndexerConfig) (now : String) (card : PatientCard)
    (item : FileItem) (sig text extractor : String)
    (hmax : 1 ≤ cfg.maxDocumentChars) (htext : text ≠ "")
    (hq : extractor ≠ "queued") (hn : extractor ≠ "none") (hu : extractor ≠ "unsupported") :
    recordInvariant (buildDocumentRecord cfg now card item sig text extractor) := by
  refine ⟨fun _ => ⟨?_, hq, hn, hu⟩,
    fun h => absurd (show ("indexed" : String) = "failed" from h) (by decide),
    fun h => absurd (show ("indexed" : String) = "pending" from h) (by decide)⟩
  show (if cfg.maxDocumentChars < text.data.length then pyTake text cfg.maxDocumentChars
        else text) ≠ ""
  split
  · exact pyTake_ne_empty hmax htext
  · exact htext

theorem buildFailureRecord_inv (now : String) (card : PatientCard) (item : FileItem)
    (sig : Option String) (extractor error : String) :
    recordInvariant (buildFailureRecord now card item sig extractor error) :=
  ⟨fun h => absurd (show ("failed" : String) = "indexed" from h) (by decide),
   fun _ => ⟨rfl, fun h => Option.noConfusion (show some error = none from h)⟩,
   fun h => absurd (show ("failed" : String) = "pending" from h) (by decide)⟩

theorem buildPendingRecord_inv (now : String) (card : PatientCard) (item : FileItem)
    (sig : Option String) :
    recordInvariant (buildPendingRecord now card item sig
      "Queued for upcoming cycle (binary extraction throttle)") :=
  ⟨fun h => absurd (show ("pending" : String) = "indexed" from h) (by decide),
   fun h => absurd (show ("pending" : String) = "failed" from h) (by decide),
   fun _ => ⟨rfl, rfl⟩⟩

theorem dictSet_forall_inv {P : DocRecord → Prop} {l : List (String × DocRecord)}
    {k : String} {v : DocRecord} (hl : ∀ kv ∈ l, P kv.2) (hv : P v) :
    ∀ kv ∈ dictSet l k v, P kv.2 := by
  intro kv hkv
  rcases mem_of_mem_dictSet hkv with h | h
  · rw [h]
    exact hv
  · exact hl kv h

theorem processExtract_inv (cfg : IndexerConfig) (force : Bool) (tp tf now : String)
    (s : LoopState) (card : PatientCard) (item : FileItem) (key sig : String)
    (hmax : 1 ≤ cfg.maxDocumentChars)
    (hl : ∀ kv ∈ s.localDocs, recordInvariant kv.2)
    (hs : ∀ kv ∈ s.sharedDocs, recordInvariant kv.2) :
    (∀ kv ∈ (processExtract cfg force tp tf now s card item key sig).localDocs,
      recordInvariant kv.2) ∧
    (∀ kv ∈ (processExtract cfg force tp tf now s card item key sig).sharedDocs,
      recordInvariant kv.2) := by
  rw [processExtract]
  split
  · exact ⟨dictSet_forall_inv hl (buildPendingRecord_inv ..), hs⟩
  · dsimp only
    by_cases hne : pyOr (extractDocumentText item).1 "" = ""
    · rw [if_pos hne]
      exact ⟨dictSet_forall_inv hl (buildFailureRecord_inv ..), hs⟩
    · rw [if_neg hne]
      obtain ⟨hq, hn, hu⟩ := extractDocumentText_extractor_ok item hne
      exact ⟨dictSet_forall_inv hl (buildDocumentRecord_inv _ _ _ _ _ _ _ hmax hne hq hn hu), hs⟩

theorem processWithSignature_inv (cfg : IndexerConfig) (force : Bool) (tp tf now : String)
    (s : LoopState) (card : PatientCard) (item : FileItem) (key sig : String)
    (hmax : 1 ≤ cfg.maxDocumentChars)
    (hl : ∀ kv ∈ s.localDocs, recordInvariant kv.2)
    (hs : ∀ kv ∈ s.sharedDocs, recordInvariant kv.2) :
    (∀ kv ∈ (processWithSignature cfg force tp tf now s card item key sig).localDocs,
      recordInvariant kv.2) ∧
    (∀ kv ∈ (processWithSignature cfg force tp tf now s card item key sig).sharedDocs,
      recordInvariant kv.2) := by
  rw [processWithSignature]
  split
  · rename_i existing hget
    split
    · have hex := hl _ (mem_of_dictGet hget)
      refine ⟨dictSet_forall_inv hl (refreshRecord_inv _ _ _ hex), ?_⟩
      split
      · exact hs
      · exact dictSet_forall_inv hs (refreshRecord_inv _ _ _ hex)
    · exact processExtract_inv cfg force tp tf now s card item key sig hmax hl hs
  · exact processExtract_inv cfg force tp tf now s card item key sig hmax hl hs

theorem processFile_inv (cfg : IndexerConfig) (force : Bool) (tp tf now : String)
    (s : LoopState) (card : PatientCard) (item : FileItem)
    (hmax : 1 ≤ cfg.maxDocumentChars)
    (hl : ∀ kv ∈ s.localDocs, recordInvariant kv.2)
    (hs : ∀ kv ∈ s.sharedDocs, recordInvariant kv.2) :
    (∀ kv ∈ (processFile cfg force tp tf now s card item).localDocs, recordInvariant kv.2) ∧
    (∀ kv ∈ (processFile cfg force tp tf now s card item).sharedDocs, recordInvariant kv.2) := by
  have hs1 : ∀ key : String,
      (∀ kv ∈ ({ s with searchableKeys := s.searchableKeys ++ [key] } : LoopState).localDocs,
        recordInvariant kv.2) := fun _ => hl
  simp only [processFile]
  split
  · exact ⟨hl, hs⟩
  · split
    · exact ⟨hl, hs⟩
    · split
      · exact ⟨hl, hs⟩
      · split
        · exact ⟨hl, hs⟩
        · split
          · exact ⟨hl, hs⟩
          · split
            · exact ⟨dictSet_forall_inv hl (buildFailureRecord_inv ..), hs⟩
            · split
              · exact ⟨hl, hs⟩
              · exact processWithSignature_inv cfg force tp tf now _ card item _ _ hmax hl hs

theorem runFilesExc_inv (cfg : IndexerConfig) (force : Bool) (tp tf now : String) :
    ∀ (L : List (PatientCard × FileItem)) (exc : Option (Nat × String)) (s : LoopState),
    1 ≤ cfg.maxDocumentChars →
    (∀ kv ∈ s.localDocs, recordInvariant kv.2) →
    (∀ kv ∈ s.sharedDocs, recordInvariant kv.2) →
    (∀ kv ∈ (runFilesExc cfg force tp tf now exc L s).1.localDocs, recordInvariant kv.2) ∧
    (∀ kv ∈ (runFilesExc cfg force tp tf now exc L s).1.sharedDocs, recordInvariant kv.2) := by
  intro L
  induction L with
  | nil =>
    intro exc s _ hl hs
    match exc with
    | none => exact ⟨hl, hs⟩
    | some (0, m) => exact ⟨hl, hs⟩
    | some (k + 1, m) => exact ⟨hl, hs⟩
  | cons p rest ih =>
    intro exc s hmax hl hs
    match exc with
    | some (0, m) => exact ⟨hl, hs⟩
    | some (k + 1, m) =>
      have h := processFile_inv cfg force tp tf now s p.1 p.2 hmax hl hs
      exact ih (some (k, m)) _ hmax h.1 h.2
    | none =>
      have h := processFile_inv cfg force tp tf now s p.1 p.2 hmax hl hs
      exact ih none _ hmax h.1 h.2

/-- C6: every Document Record present after any index cycle (forced,
targeted, routine, or aborted by an exception) satisfies the status
invariant, provided the records the cycle started from satisfied it:
`indexed` implies non-empty text and an extractor that is none of
`queued`/`none`/`unsupported`; `failed` implies empty text and a non-null
error; `pending` implies empty text and the throttling reason as error. -/
theorem c6_record_invariant (cfg : IndexerConfig) (st : IndexState) (inp : CycleInput)
    (hmax : 1 ≤ cfg.maxDocumentChars)
    (hold : ∀ kv ∈ st.documents, recordInvariant kv.2) :
    ∀ kv ∈ (runIndexCycle cfg st inp).state.documents, recordInvariant kv.2 := by
  rw [runIndexCycle]
  have h := runFilesExc_inv cfg inp.force (pyLower (pyStrip (pyOr inp.patientKey "")))
    (pyLower (pyStrip (pyOr inp.fileId ""))) inp.cycleStart (flattenCatalog inp.catalog)
    inp.excAt
    { localDocs := st.documents, sharedDocs := st.documents, rebound := []
      searchableKeys := [], binCount := 0, extractedKeys := [] }
    hmax hold hold
  split
  · exact h.2
  · split
    · intro kv hkv
      exact h.1 kv (List.mem_filter.mp hkv).1
    · exact h.1

def c6Cfg : IndexerConfig :=
  { marker_command := "marker_single", scan_interval_sec := 30
    maxDocumentChars := 10000, binaryPerCycleLimit := 2 }

def patient1 : PatientCard :=
  { patient_key := some "p1", display_name := some "Patient One"
    study_id := some "S1", case_bucket := some "b", svt_status := some "no" }

/-- A plain-text catalog file whose read succeeds with the given content. -/
def textItem (fid fname rel content : String) : FileItem :=
  { file_id := some fid, file_name := some fname, relative_path := some rel
    category := some "lab_report", mime_type := some "text/plain", extension := some ".txt"
    updated_at := some "2024-01-01T00:00:00+00:00", size_bytes := some 5, is_text := true
    fs_exists := true, fs_signature := some "5:100"
    tool_read := .ok content, tool_marker := .error "unused"
    tool_pdftotext := .error "unused", tool_tesseract := .error "unused" }

/-- A binary (PDF) catalog file whose marker run yields the given output. -/
def pdfItem (fid fname rel sig out : String) : FileItem :=
  { file_id := some fid, file_name := some fname, relative_path := some rel
    category := some "lab_report", mime_type := some "application/pdf", extension := some ".pdf"
    updated_at := some "2024-01-01T00:00:00+00:00", size_bytes := some 9, is_text := false
    fs_exists := true, fs_signature := some sig
    tool_read := .error "unused", tool_marker := .ok out
    tool_pdftotext := .error "unused", tool_tesseract := .error "unused" }

def untargetedInput (force : Bool) (catalog : List CatalogEntry)
    (exc : Option (Nat × String)) : CycleInput :=
  { force := force, patientKey := none, fileId := none, catalog := catalog
    cycleStart := "2024-03-01T00:00:00+00:00", cycleFinish := "2024-03-01T00:00:05+00:00"
    excAt := exc }

def c6Inp : CycleInput :=
  untargetedInput false [{ patient := patient1, files := [textItem "f1" "note.txt" "p1/note.txt" "hello"] }] none

theorem c6_record_invariant_witness :
    recordInvariant
      (((runIndexCycle c6Cfg emptyIndex c6Inp).state.documents.head (by decide)).2) :=
  c6_record_invariant c6Cfg emptyIndex c6Inp (by decide) (by decide) _ (List.head_mem _)

/-! ### C8 — persistence round-trip -/

theorem loadIndex_saveIndex (st : IndexState) : loadIndex (saveIndex st) = st := rfl

theorem job_set_id_self {j : Job} {x : String} (h : j.job_id = x) :
    ({ j with job_id := x } : Job) = j := by
  cases j
  simp_all

theorem loadJobEntry_eq_self (now : String) (kv : String × Job)
    (hstat : pyLower (pyStrip kv.2.status) ≠ "queued" ∧
      pyLower (pyStrip kv.2.status) ≠ "processing")
    (hid : kv.2.job_id = kv.1) : loadJobEntry now kv = kv := by
  have hj : ({ kv.2 with job_id := kv.1 } : Job) = kv.2 := job_set_id_self hid
  simp only [loadJobEntry, hj]
  rw [if_neg (not_or.mpr hstat)]

theorem loadJobs_jobs_eq (m : JobsState) (now : String)
    (hstat : ∀ kv ∈ m.jobs, pyLower (pyStrip kv.2.status) ≠ "queued" ∧
      pyLower (pyStrip kv.2.status) ≠ "processing")
    (hid : ∀ kv ∈ m.jobs, kv.2.job_id = kv.1) :
    (loadJobs (saveJobs m) now).jobs = m.jobs := by
  simp only [loadJobs, saveJobs]
  calc m.jobs.map (loadJobEntry now)
      = m.jobs.map id :=
        List.map_congr_left (fun kv hkv => loadJobEntry_eq_self now kv (hstat kv hkv) (hid kv hkv))
    _ = m.jobs := List.map_id _

theorem listJobs_congr {m1 m2 : JobsState} (h : m1.jobs = m2.jobs)
    (pid status : Option String) (lim : Int) :
    listJobs m1 pid status lim = listJobs m2 pid status lim := by
  simp only [listJobs, h]

/-- C8 (amended): writing the durable artifacts and loading them into a
fresh instance preserves `search` for all arguments and `status()` in every
field except the `running` flag (which reflects the live background thread,
not persisted state); and it preserves `list_jobs` for all arguments
provided no persisted job was in `queued`/`processing` state (such jobs are
reset to `queued` with a load-time `updated_at`, see the counterexample). -/
theorem c8_round_trip (st : IndexState) (cfg : IndexerConfig) (m : JobsState) (now : String)
    (a b : Bool)
    (hstat : ∀ kv ∈ m.jobs, pyLower (pyStrip kv.2.status) ≠ "queued" ∧
      pyLower (pyStrip kv.2.status) ≠ "processing")
    (hid : ∀ kv ∈ m.jobs, kv.2.job_id = kv.1) :
    (∀ (query : String) (pk : Option String) (lim : Int),
      searchIndex (loadIndex (saveIndex st)) query pk lim = searchIndex st query pk lim) ∧
    statusOf cfg (loadIndex (saveIndex st)) b = { statusOf cfg st a with running := b } ∧
    (∀ (pid status : Option String) (lim : Int),
      listJobs (loadJobs (saveJobs m) now) pid status lim = listJobs m pid status lim) := by
  refine ⟨?_, ?_, ?_⟩
  · intro query pk lim
    rw [loadIndex_saveIndex]
  · rw [loadIndex_saveIndex]
    simp [statusOf]
  · intro pid status lim
    exact listJobs_congr (loadJobs_jobs_eq m now hstat hid) pid status lim

theorem c8_round_trip_witness :
    listJobs (loadJobs (saveJobs fixtureJobsState) "2025-06-01T00:00:00+00:00") none none 10 =
      listJobs fixtureJobsState none none 10 :=
  (c8_round_trip emptyIndex c6Cfg fixtureJobsState "2025-06-01T00:00:00+00:00" false false
    (by decide) (by decide)).2.2 none none 10

/-- A job log holding one queued job. -/
def queuedJob : Job :=
  { fixtureJob with
    job_id := "ajob_q"
    status := "queued"
    updated_at := "2024-01-01T00:00:02+00:00"
    review := ⟨"not_ready", none, none, none, none⟩ }

def queuedJobsState : JobsState :=
  { jobs := [("ajob_q", queuedJob)], updated_at := some "2024-01-01T00:00:02+00:00"
    queue := [] }

/-- C8 counterexample: persisting a job log holding a queued job and
loading it into a fresh instance changes `list_jobs` output — `_load`
resets queued/processing jobs with a fresh `updated_at` — so the round
trip is not observation-preserving as claimed. -/
theorem c8_counterexample :
    listJobs (loadJobs (saveJobs queuedJobsState) "2025-06-01T00:00:00+00:00") none none 50 ≠
      listJobs queuedJobsState none none 50 := by decide

/-! ### C1 — the exception path of a cycle -/

theorem contains_append_singleton_false {l : List String} {k a : String}
    (h : (l ++ [k]).contains a = false) : l.contains a = false ∧ a ≠ k := by
  constructor
  · by_cases hc : l.contains a = true
    · have hm : a ∈ l := List.mem_of_elem_eq_true hc
      have : (l ++ [k]).contains a = true :=
        List.elem_eq_true_of_mem (List.mem_append_left _ hm)
      simp_all
    · simp_all
  · intro he
    have : (l ++ [k]).contains a = true :=
      List.elem_eq_true_of_mem (List.mem_append_right _ (by simp [he]))
    simp_all

theorem strList_contains_of_mem {l : List String} {a : String} (h : a ∈ l) :
    l.contains a = true := List.elem_eq_true_of_mem h

theorem refreshRecord_collapse (card : PatientCard) (item : FileItem)
    (c' : PatientCard) (i' : FileItem) (r : DocRecord) :
    refreshRecord card item (refreshRecord c' i' r) = refreshRecord card item r := rfl

/-- Aliasing invariant of one cycle: what `self._index["documents"]` (the
shared records) can look like relative to the pre-cycle documents `orig`:
each key is untouched or carries an in-place metadata refresh of an
`indexed` original; and any key not yet rebound still aliases between the
working copy and the shared map. -/
def CycleAlias (orig : List (String × DocRecord)) (s : LoopState) : Prop :=
  (∀ key, dictGet s.sharedDocs key = dictGet orig key ∨
    ∃ card item r₀, dictGet orig key = some r₀ ∧ r₀.status = "indexed" ∧
      dictGet s.sharedDocs key = some (refreshRecord card item r₀)) ∧
  (∀ key, s.rebound.contains key = false → dictGet s.localDocs key = dictGet s.sharedDocs key)

theorem cycleAlias_write {orig : List (String × DocRecord)} {s s' : LoopState}
    (k : String) (r : DocRecord) (h : CycleAlias orig s)
    (hl : s'.localDocs = dictSet s.localDocs k r)
    (hsh : s'.sharedDocs = s.sharedDocs)
    (hrb : s'.rebound = s.rebound ++ [k]) :
    CycleAlias orig s' := by
  refine ⟨?_, ?_⟩
  · rw [hsh]
    exact h.1
  · intro key hk
    rw [hrb] at hk
    obtain ⟨h1, h2⟩ := contains_append_singleton_false hk
    rw [hl, hsh, dictGet_dictSet_ne _ _ _ _ (Ne.symm h2)]
    exact h.2 key h1

theorem cycleAlias_refresh {orig : List (String × DocRecord)} {s s' : LoopState}
    (k : String) (card : PatientCard) (item : FileItem) (existing : DocRecord)
    (h : CycleAlias orig s)
    (hget : dictGet s.localDocs k = some existing)
    (hst : existing.status = "indexed")
    (hl : s'.localDocs = dictSet s.localDocs k (refreshRecord card item existing))
    (hsh : s'.sharedDocs = if s.rebound.contains k then s.sharedDocs
      else dictSet s.sharedDocs k (refreshRecord card item existing))
    (hrb : s'.rebound = s.rebound) :
    CycleAlias orig s' := by
  by_cases hc : s.rebound.contains k = true
  · rw [if_pos hc] at hsh
    refine ⟨?_, ?_⟩
    · rw [hsh]
      exact h.1
    · intro key hk
      rw [hrb] at hk
      have hkk : key ≠ k := by
        intro he
        rw [he, hc] at hk
        cases hk
      rw [hl, hsh, dictGet_dictSet_ne _ _ _ _ (Ne.symm hkk)]
      exact h.2 key hk
  · have hcf : s.rebound.contains k = false := by
      cases hcc : s.rebound.contains k
      · rfl
      · exact absurd hcc hc
    rw [if_neg hc] at hsh
    have hshk : dictGet s.sharedDocs k = some existing := by
      rw [← h.2 k hcf]
      exact hget
    refine ⟨?_, ?_⟩
    · intro key
      by_cases hkk : key = k
      · subst hkk
        rcases h.1 key with hA | ⟨c', i', r₀, horig, hind, hsk⟩
        · right
          refine ⟨card, item, existing, ?_, hst, ?_⟩
          · rw [← hA]
            exact hshk
          · rw [hsh]
            exact dictGet_dictSet_self ..
        · right
          refine ⟨card, item, r₀, horig, hind, ?_⟩
          have hex : existing = refreshRecord c' i' r₀ :=
            Option.some.inj (hshk.symm.trans hsk)
          rw [hsh, dictGet_dictSet_self, hex, refreshRecord_collapse]
      · rcases h.1 key with hA | ⟨c', i', r₀, horig, hind, hsk⟩
        · left
          rw [hsh, dictGet_dictSet_ne _ _ _ _ (fun he => hkk he.symm)]
          exact hA
        · right
          refine ⟨c', i', r₀, horig, hind, ?_⟩
          rw [hsh, dictGet_dictSet_ne _ _ _ _ (fun he => hkk he.symm)]
          exact hsk
    · intro key hk
      rw [hrb] at hk
      by_cases hkk : key = k
      · subst hkk
        rw [hl, hsh, dictGet_dictSet_self, dictGet_dictSet_self]
      · rw [hl, hsh, dictGet_dictSet_ne _ _ _ _ (Ne.symm hkk),
          dictGet_dictSet_ne _ _ _ _ (Ne.symm hkk)]
        exact h.2 key hk

theorem processExtract_alias {orig : List (String × DocRecord)}
    (cfg : IndexerConfig) (force : Bool) (tp tf now : String)
    (s : LoopState) (card : PatientCard) (item : FileItem) (key sig : String)
    (h : CycleAlias orig s) :
    CycleAlias orig (processExtract cfg force tp tf now s card item key sig) := by
  rw [processExtract]
  split
  · exact cycleAlias_write key _ h rfl rfl rfl
  · dsimp only
    by_cases hne : pyOr (extractDocumentText item).1 "" = ""
    · rw [if_pos hne]
      exact cycleAlias_write key _ h rfl rfl rfl
    · rw [if_neg hne]
      exact cycleAlias_write key _ h rfl rfl rfl

theorem processWithSignature_alias {orig : List (String × DocRecord)}
    (cfg : IndexerConfig) (force : Bool) (tp tf now : String)
    (s : LoopState) (card : PatientCard) (item : FileItem) (key sig : String)
    (h : CycleAlias orig s) :
    CycleAlias orig (processWithSignature cfg force tp tf now s card item key sig) := by
  rw [processWithSignature]
  split
  · rename_i existing hget
    split
    · rename_i hcond
      exact cycleAlias_refresh key card item existing h hget hcond.2.2 rfl rfl rfl
    · exact processExtract_alias cfg force tp tf now s card item key sig h
  · exact processExtract_alias cfg force tp tf now s card item key sig h

theorem processFile_alias {orig : List (String × DocRecord)}
    (cfg : IndexerConfig) (force : Bool) (tp tf now : String)
    (s : LoopState) (card : PatientCard) (item : FileItem)
    (h : CycleAlias orig s) :
    CycleAlias orig (processFile cfg force tp tf now s card item) := by
  simp only [processFile]
  split
  · exact h
  · split
    · exact h
    · split
      · exact h
      · split
        · exact h
        · split
          · exact h
          · split
            · exact cycleAlias_write _ _ h rfl rfl rfl
            · split
              · exact h
              · exact processWithSignature_alias cfg force tp tf now _ card item _ _ h

theorem runFilesExc_alias {orig : List (String × DocRecord)}
    (cfg : IndexerConfig) (force : Bool) (tp tf now : String) :
    ∀ (L : List (PatientCard × FileItem)) (exc : Option (Nat × String)) (s : LoopState),
    CycleAlias orig s →
    CycleAlias orig (runFilesExc cfg force tp tf now exc L s).1 := by
  intro L
  induction L with
  | nil =>
    intro exc s h
    match exc with
    | none => exact h
    | some (0, m) => exact h
    | some (k + 1, m) => exact h
  | cons p rest ih =>
    intro exc s h
    match exc with
    | some (0, m) => exact h
    | some (k + 1, m) =>
      exact ih (some (k, m)) _ (processFile_alias cfg force tp tf now s p.1 p.2 h)
    | none =>
      exact ih none _ (processFile_alias cfg force tp tf now s p.1 p.2 h)

theorem runFilesExc_raises (cfg : IndexerConfig) (force : Bool) (tp tf now : String) :
    ∀ (L : List (PatientCard × FileItem)) (k : Nat) (m : String) (s : LoopState),
    k < L.length →
    (runFilesExc cfg force tp tf now (some (k, m)) L s).2 = some m := by
  intro L
  induction L with
  | nil =>
    intro k m s hk
    exact absurd hk (Nat.not_lt_zero k)
  | cons p rest ih =>
    intro k m s hk
    match k with
    | 0 => rfl
    | k' + 1 => exact ih k' m _ (Nat.lt_of_succ_lt_succ hk)

/-- C1 (amended): a cycle aborted by an unexpected exception records the
exception text as `last_cycle_error`, stamps the cycle start/finish
timestamps, leaves `updated_at` untouched, and persists a documents map in
which every key is either exactly what it was before the cycle or an
in-place denormalized-metadata refresh of a previously `indexed` record —
the records newly written during the aborted cycle (new/failed/pending
entries, which live only in the working copy) are NOT included in the
persisted state, contrary to the original claim. -/
theorem c1_exception_persistence (cfg : IndexerConfig) (st : IndexState) (inp : CycleInput)
    (k : Nat) (msg : String) (hexc : inp.excAt = some (k, msg))
    (hk : k < (flattenCatalog inp.catalog).length) :
    (runIndexCycle cfg st inp).raised = true ∧
    (runIndexCycle cfg st inp).state.last_cycle_error = some msg ∧
    (runIndexCycle cfg st inp).state.last_cycle_started_at = some inp.cycleStart ∧
    (runIndexCycle cfg st inp).state.last_cycle_finished_at = some inp.cycleFinish ∧
    (runIndexCycle cfg st inp).state.updated_at = st.updated_at ∧
    (∀ key, dictGet (runIndexCycle cfg st inp).state.documents key = dictGet st.documents key ∨
      ∃ card item r₀, dictGet st.documents key = some r₀ ∧ r₀.status = "indexed" ∧
        dictGet (runIndexCycle cfg st inp).state.documents key =
          some (refreshRecord card item r₀)) := by
  have hsnd := runFilesExc_raises cfg inp.force (pyLower (pyStrip (pyOr inp.patientKey "")))
    (pyLower (pyStrip (pyOr inp.fileId ""))) inp.cycleStart (flattenCatalog inp.catalog) k msg
    { localDocs := st.documents, sharedDocs := st.documents, rebound := []
      searchableKeys := [], binCount := 0, extractedKeys := [] } hk
  have halias := runFilesExc_alias cfg inp.force (pyLower (pyStrip (pyOr inp.patientKey "")))
    (pyLower (pyStrip (pyOr inp.fileId ""))) inp.cycleStart (flattenCatalog inp.catalog)
    (some (k, msg))
    { localDocs := st.documents, sharedDocs := st.documents, rebound := []
      searchableKeys := [], binCount := 0, extractedKeys := [] }
    ⟨fun _ => Or.inl rfl, fun _ _ => rfl⟩
  rw [runIndexCycle, hexc]
  rw [hsnd]
  exact ⟨rfl, rfl, rfl, rfl, rfl, halias.1⟩

/-- A searchable text file that is missing on disk. -/
def missingItem (fid : String) : FileItem :=
  { textItem fid "gone.txt" "p1/gone.txt" "x" with fs_exists := false, fs_signature := none }

def c1Inp : CycleInput :=
  untargetedInput false
    [{ patient := patient1
       files := [missingItem "f1", textItem "f2" "b.txt" "p1/b.txt" "hi"] }]
    (some (1, "boom"))

/-- C1 counterexample: the cycle writes a failure record for the missing
file `f1` into its working copy, then hits the injected exception before
file `f2`; the persisted state records the exception but does NOT contain
the accumulated `f1` record, refuting "the per-document record changes
accumulated so far in that cycle are included in the state persisted". -/
theorem c1_counterexample :
    (runIndexCycle c6Cfg emptyIndex c1Inp).raised = true ∧
    (runIndexCycle c6Cfg emptyIndex c1Inp).state.last_cycle_error = some "boom" ∧
    dictGet (runIndexCycle c6Cfg emptyIndex c1Inp).localAtStop "p1::f1" ≠ none ∧
    dictGet (runIndexCycle c6Cfg emptyIndex c1Inp).state.documents "p1::f1" = none := by
  refine ⟨by decide, by decide, by decide, by decide⟩

theorem c1_exception_persistence_witness :
    (runIndexCycle c6Cfg emptyIndex c1Inp).raised = true ∧
    (runIndexCycle c6Cfg emptyIndex c1Inp).state.last_cycle_error = some "boom" ∧
    (dictGet (runIndexCycle c6Cfg emptyIndex c1Inp).state.documents "p1::f1" =
        dictGet emptyIndex.documents "p1::f1" ∨
      ∃ card item r₀, dictGet emptyIndex.documents "p1::f1" = some r₀ ∧
        r₀.status = "indexed" ∧
        dictGet (runIndexCycle c6Cfg emptyIndex c1Inp).state.documents "p1::f1" =
          some (refreshRecord card item r₀)) :=
  have h := c1_exception_persistence c6Cfg emptyIndex c1Inp 1 "boom" (by decide) (by decide)
  ⟨h.1, h.2.1, h.2.2.2.2.2 "p1::f1"⟩

/-! ### C3 — idempotence of a no-change cycle -/

/-- The searchable-key contribution of one flattened catalog row (the key
is registered exactly when the file id is non-blank and the file is
searchable). -/
def qualKey (p : PatientCard × FileItem) : Option String :=
  if pyLower (pyStrip (pyOr p.2.file_id "")) = "" then none
  else if isSearchable p.2 = false then none
  else some (documentKey (pyLower (pyStrip (pyOr p.1.patient_key "")))
    (pyLower (pyStrip (pyOr p.2.file_id ""))))

/-- Decidable per-row condition under which an untargeted, unforced cycle
leaves the documents map untouched at this row: the row is skipped outright,
or its file is unchanged (existing indexed record with the same signature)
and the metadata refresh rewrites identical values. -/
def refreshOnlyItemB (docs : List (String × DocRecord)) (p : PatientCard × FileItem) : Bool :=
  if pyLower (pyStrip (pyOr p.2.file_id "")) = "" then true
  else if isSearchable p.2 = false then true
  else if pyStrip (pyOr p.2.relative_path "") = "" then true
  else if p.2.fs_exists = false then false
  else
    match p.2.fs_signature with
    | none => true
    | some sig =>
      match dictGet docs (documentKey (pyLower (pyStrip (pyOr p.1.patient_key "")))
        (pyLower (pyStrip (pyOr p.2.file_id "")))) with
      | none => false
      | some r =>
        decide (pyOr r.signature "" = sig) && decide (r.status = "indexed") &&
        decide (refreshRecord p.1 p.2 r = r)

theorem processFile_refresh_only (cfg : IndexerConfig) (now : String)
    (s : LoopState) (card : PatientCard) (item : FileItem)
    (hsh : s.sharedDocs = s.localDocs) (hrb : s.rebound = [])
    (h : refreshOnlyItemB s.localDocs (card, item) = true) :
    processFile cfg false "" "" now s card item =
      { s with searchableKeys := s.searchableKeys ++ (qualKey (card, item)).toList } := by
  simp only [processFile, refreshOnlyItemB, qualKey] at h ⊢
  by_cases h1 : pyLower (pyStrip (pyOr item.file_id "")) = ""
  · rw [if_pos h1, if_pos h1]
    simp
  · rw [if_neg h1] at h
    rw [if_neg h1, if_neg h1]
    by_cases h2 : isSearchable item = false
    · rw [if_pos h2, if_pos h2]
      simp
    · rw [if_neg h2] at h
      rw [if_neg h2, if_neg h2]
      rw [if_neg (show ¬(("" : String) ≠ "" ∧
        pyLower (pyStrip (pyOr card.patient_key "")) ≠ "") by simp)]
      rw [if_neg (show ¬(("" : String) ≠ "" ∧
        pyLower (pyStrip (pyOr item.file_id "")) ≠ "") by simp)]
      by_cases h3 : pyStrip (pyOr item.relative_path "") = ""
      · rw [if_pos h3] at h ⊢
        rfl
      · rw [if_neg h3] at h ⊢
        by_cases h4 : item.fs_exists = false
        · rw [if_pos h4] at h
          cases h
        · rw [if_neg h4] at h ⊢
          cases hsig : item.fs_signature with
          | none =>
            rfl
          | some sig =>
            rw [hsig] at h
            dsimp only at h ⊢
            cases hget : dictGet s.localDocs
                (documentKey (pyLower (pyStrip (pyOr card.patient_key "")))
                  (pyLower (pyStrip (pyOr item.file_id "")))) with
            | none =>
              rw [hget] at h
              dsimp only at h
              cases h
            | some r =>
              rw [hget] at h
              dsimp only at h
              rw [Bool.and_eq_true, Bool.and_eq_true] at h
              obtain ⟨⟨hsigm, hind⟩, hrid⟩ := h
              rw [decide_eq_true_eq] at hsigm hind hrid
              rw [processWithSignature]
              dsimp only
              rw [hget]
              dsimp only
              rw [if_pos ⟨rfl, hsigm, hind⟩]
              rw [hrid, dictSet_eq_self_of_get hget, hrb]
              rw [show (([] : List String).contains (documentKey
                (pyLower (pyStrip (pyOr card.patient_key "")))
                (pyLower (pyStrip (pyOr item.file_id ""))))) = false from rfl]
              rw [if_neg (by simp)]
              rw [hsh, dictSet_eq_self_of_get hget, ← hsh]
              rfl

theorem runFilesExc_refresh_only (cfg : IndexerConfig) (now : String) :
    ∀ (L : List (PatientCard × FileItem)) (s : LoopState),
    s.sharedDocs = s.localDocs → s.rebound = [] →
    (∀ p ∈ L, refreshOnlyItemB s.localDocs p = true) →
    (runFilesExc cfg false "" "" now none L s).1 =
      { s with searchableKeys := s.searchableKeys ++ L.filterMap qualKey } ∧
    (runFilesExc cfg false "" "" now none L s).2 = none := by
  intro L
  induction L with
  | nil =>
    intro s hsh hrb hall
    refine ⟨?_, rfl⟩
    show s = _
    simp
  | cons p rest ih =>
    intro s hsh hrb hall
    have hstep := processFile_refresh_only cfg now s p.1 p.2 hsh hrb
      (hall p (List.mem_cons_self p rest))
    have hred : runFilesExc cfg false "" "" now none (p :: rest) s =
        runFilesExc cfg false "" "" now none rest (processFile cfg false "" "" now s p.1 p.2) :=
      rfl
    rw [hred, hstep]
    have hih := ih { s with searchableKeys := s.searchableKeys ++ (qualKey (p.1, p.2)).toList }
      hsh hrb (fun q hq => hall q (List.mem_cons_of_mem p hq))
    refine ⟨?_, hih.2⟩
    rw [hih.1]
    cases hq : qualKey (p.1, p.2) <;>
      simp [List.filterMap_cons, hq, List.append_assoc]

theorem c3_idempotent_cycle (cfg : IndexerConfig) (st : IndexState) (inp : CycleInput)
    (hforce : inp.force = false) (htp : inp.patientKey = none) (htf : inp.fileId = none)
    (hexc : inp.excAt = none)
    (hitems : ∀ p ∈ flattenCatalog inp.catalog, refreshOnlyItemB st.documents p = true)
    (hkeys : ∀ kv ∈ st.documents, kv.1 ∈ (flattenCatalog inp.catalog).filterMap qualKey) :
    (runIndexCycle cfg st inp).state.documents = st.documents ∧
    (runIndexCycle cfg st inp).extractedKeys = [] ∧
    (runIndexCycle cfg st inp).raised = false := by
  rw [runIndexCycle, hexc, htp, htf, hforce]
  rw [show pyLower (pyStrip (pyOr (none : Option String) "")) = "" from rfl]
  have hfold := runFilesExc_refresh_only cfg inp.cycleStart (flattenCatalog inp.catalog)
    { localDocs := st.documents, sharedDocs := st.documents, rebound := []
      searchableKeys := [], binCount := 0, extractedKeys := [] }
    rfl rfl hitems
  rw [hfold.2]
  dsimp only
  rw [hfold.1]
  dsimp only
  rw [if_pos ⟨rfl, rfl⟩]
  refine ⟨?_, rfl, rfl⟩
  refine List.filter_eq_self.mpr ?_
  intro kv hkv
  refine strList_contains_of_mem ?_
  rw [List.nil_append]
  exact hkeys kv hkv

def c3GoodCatalog : List CatalogEntry :=
  [{ patient := patient1, files := [textItem "f1" "note.txt" "p1/note.txt" "hello"] }]

def c3St1 : IndexState :=
  (runIndexCycle c6Cfg emptyIndex (untargetedInput false c3GoodCatalog none)).state

theorem c3_idempotent_cycle_witness :
    (runIndexCycle c6Cfg c3St1 (untargetedInput false c3GoodCatalog none)).state.documents =
      c3St1.documents ∧
    (runIndexCycle c6Cfg c3St1 (untargetedInput false c3GoodCatalog none)).extractedKeys = [] ∧
    (runIndexCycle c6Cfg c3St1 (untargetedInput false c3GoodCatalog none)).raised = false :=
  c3_idempotent_cycle c6Cfg c3St1 (untargetedInput false c3GoodCatalog none)
    rfl rfl rfl rfl (by decide) (by decide)

def c3Cfg : IndexerConfig := { c6Cfg with binaryPerCycleLimit := 1 }

def c3BinCatalog : List CatalogEntry :=
  [{ patient := patient1
     files := [pdfItem "f1" "a.pdf" "p1/a.pdf" "9:1" "textA",
               pdfItem "f2" "b.pdf" "p1/b.pdf" "9:2" "textB"] }]

def c3Out1 : CycleOutput :=
  runIndexCycle c3Cfg emptyIndex (untargetedInput false c3BinCatalog none)

def c3Out2 : CycleOutput :=
  runIndexCycle c3Cfg c3Out1.state (untargetedInput false c3BinCatalog none)

/-- C3 counterexample: with two binary files and a per-cycle cap of 1 and no
underlying file change, the second unforced untargeted cycle still invokes
the extraction pipeline (on the throttled file `f2`) and changes that
record from `pending` to `indexed` — not a metadata-only refresh and not
zero extraction-tool invocations. -/
theorem c3_counterexample :
    c3Out2.extractedKeys = ["p1::f2"] ∧
    (dictGet c3Out1.state.documents "p1::f2").map (fun r => r.status) = some "pending" ∧
    (dictGet c3Out2.state.documents "p1::f2").map (fun r => r.status) = some "indexed" := by
  refine ⟨rfl, rfl, rfl⟩

/-! ### C2 — the binary-extraction throttle -/

/-- The document key of one flattened catalog row. -/
def itemKey (p : PatientCard × FileItem) : String :=
  documentKey (pyLower (pyStrip (pyOr p.1.patient_key "")))
    (pyLower (pyStrip (pyOr p.2.file_id "")))

/-- Decidable per-row condition for "binary-source file needing (successful)
extraction": the row is not skipped, the file is binary, on disk with a
signature, any existing record is not an unchanged indexed one (so the
refresh branch does not fire), and the extraction pipeline yields text. -/
def binReadyItemB (docs : List (String × DocRecord)) (p : PatientCard × FileItem) : Bool :=
  if pyLower (pyStrip (pyOr p.2.file_id "")) = "" then false
  else if isSearchable p.2 = false then false
  else if pyStrip (pyOr p.2.relative_path "") = "" then false
  else if p.2.fs_exists = false then false
  else if p.2.is_text = true then false
  else
    match p.2.fs_signature with
    | none => false
    | some sig =>
      (match dictGet docs (documentKey (pyLower (pyStrip (pyOr p.1.patient_key "")))
          (pyLower (pyStrip (pyOr p.2.file_id "")))) with
        | none => true
        | some r => !(decide (pyOr r.signature "" = sig) && decide (r.status = "indexed"))) &&
      !(decide (pyOr (extractDocumentText p.2).1 "" = ""))

/-- The record the throttle writes for a deferred binary file. -/
def pendingRecordOf (now : String) (p : PatientCard × FileItem) : DocRecord :=
  buildPendingRecord now p.1 p.2 p.2.fs_signature
    "Queued for upcoming cycle (binary extraction throttle)"

/-- The record a successful extraction writes for a catalog row. -/
def indexedRecordOf (cfg : IndexerConfig) (now : String) (p : PatientCard × FileItem) : DocRecord :=
  buildDocumentRecord cfg now p.1 p.2 (pyOr p.2.fs_signature "")
    (pyOr (extractDocumentText p.2).1 "") (extractDocumentText p.2).2.1

theorem pyOr_some_empty (s : String) : pyOr (some s) "" = s := by
  by_cases h : s = "" <;> simp [pyOr, h]

theorem contains_append_singleton_of {l : List String} {k a : String}
    (h : l.contains a = false) (hne : a ≠ k) : (l ++ [k]).contains a = false := by
  by_cases hc : (l ++ [k]).contains a = true
  · rcases List.mem_append.mp (List.mem_of_elem_eq_true hc) with hm | hm
    · have ht : l.contains a = true := List.elem_eq_true_of_mem hm
      rw [ht] at h
      cases h
    · exact absurd (List.mem_singleton.mp hm) hne
  · cases hcc : (l ++ [k]).contains a
    · rfl
    · exact absurd hcc hc

theorem dictGet_filter {α : Type} (pred : String × α → Bool) :
    ∀ (l : List (String × α)) (k : String) (v : α),
    dictGet l k = some v → pred (k, v) = true → dictGet (l.filter pred) k = some v := by
  intro l
  induction l with
  | nil =>
    intro k v h _
    cases h
  | cons kv rest ih =>
    obtain ⟨k', v'⟩ := kv
    intro k v h hp
    rw [dictGet] at h
    by_cases he : k' = k
    · rw [if_pos he] at h
      injection h with h
      subst he
      subst h
      rw [List.filter_cons, if_pos hp, dictGet, if_pos rfl]
    · rw [if_neg he] at h
      rw [List.filter_cons]
      by_cases hc : pred (k', v') = true
      · rw [if_pos hc, dictGet, if_neg he]
        exact ih k v h hp
      · rw [if_neg hc]
        exact ih k v h hp

/-- The two per-row regimes are mutually exclusive. -/
theorem refreshOnly_not_binReady {docs : List (String × DocRecord)} {p : PatientCard × FileItem}
    (h : refreshOnlyItemB docs p = true) : binReadyItemB docs p = false := by
  rw [refreshOnlyItemB] at h
  rw [binReadyItemB]
  by_cases h1 : pyLower (pyStrip (pyOr p.2.file_id "")) = ""
  · rw [if_pos h1]
  · rw [if_neg h1] at h
    rw [if_neg h1]
    by_cases h2 : isSearchable p.2 = false
    · rw [if_pos h2]
    · rw [if_neg h2] at h
      rw [if_neg h2]
      by_cases h3 : pyStrip (pyOr p.2.relative_path "") = ""
      · rw [if_pos h3]
      · rw [if_neg h3] at h
        rw [if_neg h3]
        by_cases h4 : p.2.fs_exists = false
        · rw [if_pos h4] at h
          cases h
        · rw [if_neg h4] at h
          rw [if_neg h4]
          by_cases h5 : p.2.is_text = true
          · rw [if_pos h5]
          · rw [if_neg h5]
            cases hsig : p.2.fs_signature with
            | none => rfl
            | some sig =>
              rw [hsig] at h
              dsimp only at h ⊢
              cases hget : dictGet docs (documentKey (pyLower (pyStrip (pyOr p.1.patient_key "")))
                  (pyLower (pyStrip (pyOr p.2.file_id "")))) with
              | none =>
                rw [hget] at h
                dsimp only at h
                cases h
              | some r =>
                rw [hget] at h
                dsimp only at h ⊢
                rw [Bool.and_eq_true, Bool.and_eq_true] at h
                obtain ⟨⟨hsigm, hind⟩, _⟩ := h
                rw [decide_eq_true_eq] at hsigm hind
                simp [hsigm, hind]

/-- Structural facts about a binary-ready row. -/
theorem binReady_facts {docs : List (String × DocRecord)} {p : PatientCard × FileItem}
    (h : binReadyItemB docs p = true) :
    ¬(pyLower (pyStrip (pyOr p.2.file_id "")) = "") ∧ ¬(isSearchable p.2 = false) ∧
    ¬(pyStrip (pyOr p.2.relative_path "") = "") ∧ ¬(p.2.fs_exists = false) ∧
    p.2.is_text = false ∧ (∃ sig, p.2.fs_signature = some sig) ∧
    ¬(pyOr (extractDocumentText p.2).1 "" = "") ∧
    qualKey p = some (itemKey p) := by
  rw [binReadyItemB] at h
  by_cases h1 : pyLower (pyStrip (pyOr p.2.file_id "")) = ""
  · rw [if_pos h1] at h
    cases h
  · rw [if_neg h1] at h
    by_cases h2 : isSearchable p.2 = false
    · rw [if_pos h2] at h
      cases h
    · rw [if_neg h2] at h
      by_cases h3 : pyStrip (pyOr p.2.relative_path "") = ""
      · rw [if_pos h3] at h
        cases h
      · rw [if_neg h3] at h
        by_cases h4 : p.2.fs_exists = false
        · rw [if_pos h4] at h
          cases h
        · rw [if_neg h4] at h
          by_cases h5 : p.2.is_text = true
          · rw [if_pos h5] at h
            cases h
          · rw [if_neg h5] at h
            have h5' : p.2.is_text = false := by
              cases hb : p.2.is_text
              · rfl
              · exact absurd hb h5
            cases hsig : p.2.fs_signature with
            | none =>
              rw [hsig] at h
              cases h
            | some sig =>
              rw [hsig] at h
              dsimp only at h
              rw [Bool.and_eq_true] at h
              have hok : ¬(pyOr (extractDocumentText p.2).1 "" = "") := by
                have hnx := h.2
                have hx : decide (pyOr (extractDocumentText p.2).1 "" = "") = false := by
                  cases hd : decide (pyOr (extractDocumentText p.2).1 "" = "")
                  · rfl
                  · rw [hd] at hnx
                    cases hnx
                exact of_decide_eq_false hx
              refine ⟨h1, h2, h3, h4, h5', ⟨sig, rfl⟩, hok, ?_⟩
              rw [qualKey, if_neg h1, if_neg h2, itemKey]

theorem processFile_refresh_only_at (cfg : IndexerConfig) (now : String)
    (d0 : List (String × DocRecord)) (s : LoopState) (card : PatientCard) (item : FileItem)
    (hl : dictGet s.localDocs (itemKey (card, item)) = dictGet d0 (itemKey (card, item)))
    (hs : dictGet s.sharedDocs (itemKey (card, item)) = dictGet d0 (itemKey (card, item)))
    (hrb : s.rebound.contains (itemKey (card, item)) = false)
    (h : refreshOnlyItemB d0 (card, item) = true) :
    processFile cfg false "" "" now s card item =
      { s with searchableKeys := s.searchableKeys ++ (qualKey (card, item)).toList } := by
  have hl' : dictGet s.localDocs (documentKey (pyLower (pyStrip (pyOr card.patient_key "")))
      (pyLower (pyStrip (pyOr item.file_id "")))) =
      dictGet d0 (documentKey (pyLower (pyStrip (pyOr card.patient_key "")))
      (pyLower (pyStrip (pyOr item.file_id "")))) := hl
  have hs' : dictGet s.sharedDocs (documentKey (pyLower (pyStrip (pyOr card.patient_key "")))
      (pyLower (pyStrip (pyOr item.file_id "")))) =
      dictGet d0 (documentKey (pyLower (pyStrip (pyOr card.patient_key "")))
      (pyLower (pyStrip (pyOr item.file_id "")))) := hs
  have hrb' : s.rebound.contains (documentKey (pyLower (pyStrip (pyOr card.patient_key "")))
      (pyLower (pyStrip (pyOr item.file_id "")))) = false := hrb
  simp only [processFile, refreshOnlyItemB, qualKey] at h ⊢
  by_cases h1 : pyLower (pyStrip (pyOr item.file_id "")) = ""
  · rw [if_pos h1, if_pos h1]
    simp
  · rw [if_neg h1] at h
    rw [if_neg h1, if_neg h1]
    by_cases h2 : isSearchable item = false
    · rw [if_pos h2, if_pos h2]
      simp
    · rw [if_neg h2] at h
      rw [if_neg h2, if_neg h2]
      rw [if_neg (show ¬(("" : String) ≠ "" ∧
        pyLower (pyStrip (pyOr card.patient_key "")) ≠ "") by simp)]
      rw [if_neg (show ¬(("" : String) ≠ "" ∧
        pyLower (pyStrip (pyOr item.file_id "")) ≠ "") by simp)]
      by_cases h3 : pyStrip (pyOr item.relative_path "") = ""
      · rw [if_pos h3] at h ⊢
        rfl
      · rw [if_neg h3] at h ⊢
        by_cases h4 : item.fs_exists = false
        · rw [if_pos h4] at h
          cases h
        · rw [if_neg h4] at h ⊢
          cases hsig : item.fs_signature with
          | none =>
            rfl
          | some sig =>
            rw [hsig] at h
            dsimp only at h ⊢
            cases hget : dictGet d0
                (documentKey (pyLower (pyStrip (pyOr card.patient_key "")))
                  (pyLower (pyStrip (pyOr item.file_id "")))) with
            | none =>
              rw [hget] at h
              dsimp only at h
              cases h
            | some r =>
              rw [hget] at h
              dsimp only at h
              rw [Bool.and_eq_true, Bool.and_eq_true] at h
              obtain ⟨⟨hsigm, hind⟩, hrid⟩ := h
              rw [decide_eq_true_eq] at hsigm hind hrid
              have hgl : dictGet s.localDocs
                  (documentKey (pyLower (pyStrip (pyOr card.patient_key "")))
                    (pyLower (pyStrip (pyOr item.file_id "")))) = some r := hl'.trans hget
              have hgs : dictGet s.sharedDocs
                  (documentKey (pyLower (pyStrip (pyOr card.patient_key "")))
                    (pyLower (pyStrip (pyOr item.file_id "")))) = some r := hs'.trans hget
              rw [processWithSignature]
              dsimp only
              rw [hgl]
              dsimp only
              rw [if_pos ⟨rfl, hsigm, hind⟩]
              rw [hrid, dictSet_eq_self_of_get hgl, hrb']
              rw [if_neg (by simp)]
              rw [dictSet_eq_self_of_get hgs]
              rfl

theorem processExtract_throttled (cfg : IndexerConfig) (now : String)
    (s : LoopState) (card : PatientCard) (item : FileItem) (key sig : String)
    (hbin : item.is_text = false)
    (hcap : cfg.binaryPerCycleLimit ≤ s.binCount) :
    processExtract cfg false "" "" now s card item key sig =
      { s with
        localDocs := dictSet s.localDocs key
          (buildPendingRecord now card item (some sig)
            "Queued for upcoming cycle (binary extraction throttle)")
        rebound := s.rebound ++ [key] } := by
  rw [processExtract]
  dsimp only
  rw [if_pos ⟨hbin, rfl, rfl, rfl, hcap⟩]

theorem processExtract_extracts (cfg : IndexerConfig) (now : String)
    (s : LoopState) (card : PatientCard) (item : FileItem) (key sig : String)
    (hbin : item.is_text = false)
    (hcap : s.binCount < cfg.binaryPerCycleLimit)
    (hok : ¬(pyOr (extractDocumentText item).1 "" = "")) :
    processExtract cfg false "" "" now s card item key sig =
      { s with
        localDocs := dictSet s.localDocs key
          (buildDocumentRecord cfg now card item sig (pyOr (extractDocumentText item).1 "")
            (extractDocumentText item).2.1)
        rebound := s.rebound ++ [key]
        binCount := s.binCount + 1
        extractedKeys := s.extractedKeys ++ [key] } := by
  rw [processExtract]
  dsimp only
  rw [if_neg (fun hc => absurd hc.2.2.2.2 (Nat.not_le.mpr hcap))]
  rw [if_neg hok]
  rw [hbin]
  rw [if_neg Bool.false_ne_true]

theorem processFile_bin_step (cfg : IndexerConfig) (now : String)
    (d0 : List (String × DocRecord)) (s : LoopState) (card : PatientCard) (item : FileItem)
    (sig : String)
    (hl : dictGet s.localDocs (itemKey (card, item)) = dictGet d0 (itemKey (card, item)))
    (h : binReadyItemB d0 (card, item) = true)
    (hsig : item.fs_signature = some sig) :
    processFile cfg false "" "" now s card item =
      processExtract cfg false "" "" now
        { s with searchableKeys := s.searchableKeys ++ [itemKey (card, item)] }
        card item (itemKey (card, item)) sig := by
  obtain ⟨h1, h2, h3, h4, h5, _, hok, _⟩ := binReady_facts h
  have hl' : dictGet s.localDocs (documentKey (pyLower (pyStrip (pyOr card.patient_key "")))
      (pyLower (pyStrip (pyOr item.file_id "")))) =
      dictGet d0 (documentKey (pyLower (pyStrip (pyOr card.patient_key "")))
      (pyLower (pyStrip (pyOr item.file_id "")))) := hl
  simp only [processFile, itemKey]
  rw [if_neg h1, if_neg h2]
  rw [if_neg (show ¬(("" : String) ≠ "" ∧
    pyLower (pyStrip (pyOr card.patient_key "")) ≠ "") by simp)]
  rw [if_neg (show ¬(("" : String) ≠ "" ∧
    pyLower (pyStrip (pyOr item.file_id "")) ≠ "") by simp)]
  rw [if_neg h3, if_neg h4, hsig]
  dsimp only
  rw [processWithSignature]
  dsimp only
  cases hget : dictGet d0 (documentKey (pyLower (pyStrip (pyOr card.patient_key "")))
      (pyLower (pyStrip (pyOr item.file_id "")))) with
  | none =>
    rw [hl'.trans hget]
  | some r =>
    rw [hl'.trans hget]
    dsimp only
    rw [binReadyItemB] at h
    rw [if_neg h1, if_neg h2, if_neg h3, if_neg h4] at h
    rw [if_neg (show ¬(item.is_text = true) by rw [h5]; exact Bool.false_ne_true)] at h
    rw [hsig] at h
    dsimp only at h
    rw [hget] at h
    dsimp only at h
    rw [Bool.and_eq_true] at h
    have hng : ¬((false : Bool) = false ∧ pyOr r.signature "" = sig ∧
        r.status = "indexed") := by
      intro hc
      have hd : (decide (pyOr r.signature "" = sig) && decide (r.status = "indexed")) = true := by
        rw [decide_eq_true hc.2.1, decide_eq_true hc.2.2]
        rfl
      rw [hd] at h
      exact absurd h.1 (by decide)
    rw [if_neg hng]

/-- The per-file loop on a catalog slice whose rows are each refresh-only or
binary-ready (relative to the pre-cycle documents `d0`), with pairwise
distinct keys that the running state has not yet touched: the loop extracts
exactly the binary-ready rows up to the remaining budget, writes throttle
pending records for the rest, and leaves every other key alone. -/
theorem runFiles_mixed (cfg : IndexerConfig) (now : String) (d0 : List (String × DocRecord)) :
    ∀ (L : List (PatientCard × FileItem)) (s : LoopState),
    (∀ p ∈ L, refreshOnlyItemB d0 p = true ∨ binReadyItemB d0 p = true) →
    (L.map itemKey).Nodup →
    (∀ p ∈ L, dictGet s.localDocs (itemKey p) = dictGet d0 (itemKey p) ∧
      dictGet s.sharedDocs (itemKey p) = dictGet d0 (itemKey p) ∧
      s.rebound.contains (itemKey p) = false) →
    (runFilesExc cfg false "" "" now none L s).2 = none ∧
    (runFilesExc cfg false "" "" now none L s).1.extractedKeys =
      s.extractedKeys ++ ((L.filter (binReadyItemB d0)).take
        (cfg.binaryPerCycleLimit - s.binCount)).map itemKey ∧
    (runFilesExc cfg false "" "" now none L s).1.binCount =
      s.binCount + ((L.filter (binReadyItemB d0)).take
        (cfg.binaryPerCycleLimit - s.binCount)).length ∧
    (runFilesExc cfg false "" "" now none L s).1.searchableKeys =
      s.searchableKeys ++ L.filterMap qualKey ∧
    (∀ p ∈ (L.filter (binReadyItemB d0)).take (cfg.binaryPerCycleLimit - s.binCount),
      dictGet (runFilesExc cfg false "" "" now none L s).1.localDocs (itemKey p) =
        some (indexedRecordOf cfg now p)) ∧
    (∀ p ∈ (L.filter (binReadyItemB d0)).drop (cfg.binaryPerCycleLimit - s.binCount),
      dictGet (runFilesExc cfg false "" "" now none L s).1.localDocs (itemKey p) =
        some (pendingRecordOf now p)) ∧
    (∀ key, (∀ p ∈ L, itemKey p ≠ key) →
      dictGet (runFilesExc cfg false "" "" now none L s).1.localDocs key =
        dictGet s.localDocs key) := by
  intro L
  induction L with
  | nil =>
    intro s hall hnd hunt
    refine ⟨rfl, ?_, ?_, ?_, ?_, ?_, ?_⟩
    · show s.extractedKeys = _
      simp
    · show s.binCount = _
      simp
    · show s.searchableKeys = _
      simp
    · intro q hq
      simp at hq
    · intro q hq
      simp at hq
    · intro key _
      rfl
  | cons p rest ih =>
    intro s hall hnd hunt
    have hnd' := (List.nodup_cons.mp hnd).2
    have hknotin : itemKey p ∉ rest.map itemKey := (List.nodup_cons.mp hnd).1
    have hkne : ∀ q ∈ rest, itemKey q ≠ itemKey p := by
      intro q hq he
      exact hknotin (by rw [← he]; exact List.mem_map_of_mem itemKey hq)
    have hred : runFilesExc cfg false "" "" now none (p :: rest) s =
        runFilesExc cfg false "" "" now none rest
          (processFile cfg false "" "" now s p.1 p.2) := rfl
    rcases hall p (List.mem_cons_self p rest) with hro | hbr
    · -- refresh-only head
      have hstep : processFile cfg false "" "" now s p.1 p.2 =
          { s with searchableKeys := s.searchableKeys ++ (qualKey p).toList } :=
        processFile_refresh_only_at cfg now d0 s p.1 p.2
          (hunt p (List.mem_cons_self p rest)).1
          (hunt p (List.mem_cons_self p rest)).2.1
          (hunt p (List.mem_cons_self p rest)).2.2 hro
      have hbf : binReadyItemB d0 p = false := refreshOnly_not_binReady hro
      have hfc : (p :: rest).filter (binReadyItemB d0) = rest.filter (binReadyItemB d0) := by
        rw [List.filter_cons, if_neg (by rw [hbf]; exact Bool.false_ne_true)]
      have hih := ih { s with searchableKeys := s.searchableKeys ++ (qualKey p).toList }
        (fun q hq => hall q (List.mem_cons_of_mem p hq)) hnd'
        (fun q hq => hunt q (List.mem_cons_of_mem p hq))
      rw [hred, hstep, hfc]
      refine ⟨hih.1, hih.2.1, hih.2.2.1, ?_, ?_, ?_, ?_⟩
      · rw [hih.2.2.2.1]
        cases hq : qualKey p <;>
          simp [List.filterMap_cons, hq, List.append_assoc]
      · intro q hq
        exact hih.2.2.2.2.1 q hq
      · intro q hq
        exact hih.2.2.2.2.2.1 q hq
      · intro key hkey
        exact hih.2.2.2.2.2.2 key (fun q hq => hkey q (List.mem_cons_of_mem p hq))
    · -- binary-ready head
      obtain ⟨hf1, hf2, hf3, hf4, hbin, ⟨sig, hsig⟩, hok, hqk⟩ := binReady_facts hbr
      have hstep : processFile cfg false "" "" now s p.1 p.2 =
          processExtract cfg false "" "" now
            { s with searchableKeys := s.searchableKeys ++ [itemKey p] }
            p.1 p.2 (itemKey p) sig :=
        processFile_bin_step cfg now d0 s p.1 p.2 sig
          (hunt p (List.mem_cons_self p rest)).1 hbr hsig
      have hfc : (p :: rest).filter (binReadyItemB d0) =
          p :: rest.filter (binReadyItemB d0) := by
        rw [List.filter_cons, if_pos hbr]
      have hwrite : ∀ (v : DocRecord), ∀ q ∈ rest,
          dictGet (dictSet s.localDocs (itemKey p) v) (itemKey q) = dictGet d0 (itemKey q) ∧
          dictGet s.sharedDocs (itemKey q) = dictGet d0 (itemKey q) ∧
          (s.rebound ++ [itemKey p]).contains (itemKey q) = false := by
        intro v q hq
        have hne := hkne q hq
        refine ⟨?_, (hunt q (List.mem_cons_of_mem p hq)).2.1, ?_⟩
        · rw [dictGet_dictSet_ne _ _ _ _ (Ne.symm hne)]
          exact (hunt q (List.mem_cons_of_mem p hq)).1
        · exact contains_append_singleton_of (hunt q (List.mem_cons_of_mem p hq)).2.2 hne
      by_cases hcap : cfg.binaryPerCycleLimit ≤ s.binCount
      · -- throttled
        have hext : processExtract cfg false "" "" now
            { s with searchableKeys := s.searchableKeys ++ [itemKey p] }
            p.1 p.2 (itemKey p) sig =
            { s with
              localDocs := dictSet s.localDocs (itemKey p) (pendingRecordOf now p)
              rebound := s.rebound ++ [itemKey p]
              searchableKeys := s.searchableKeys ++ [itemKey p] } := by
          rw [processExtract_throttled cfg now
            { s with searchableKeys := s.searchableKeys ++ [itemKey p] }
            p.1 p.2 (itemKey p) sig hbin hcap]
          rw [pendingRecordOf, hsig]
        have hn0 : cfg.binaryPerCycleLimit - s.binCount = 0 := Nat.sub_eq_zero_of_le hcap
        have hih := ih
          { s with
            localDocs := dictSet s.localDocs (itemKey p) (pendingRecordOf now p)
            rebound := s.rebound ++ [itemKey p]
            searchableKeys := s.searchableKeys ++ [itemKey p] }
          (fun q hq => hall q (List.mem_cons_of_mem p hq)) hnd'
          (fun q hq => hwrite (pendingRecordOf now p) q hq)
        have hn0' : cfg.binaryPerCycleLimit -
            ({ s with
              localDocs := dictSet s.localDocs (itemKey p) (pendingRecordOf now p)
              rebound := s.rebound ++ [itemKey p]
              searchableKeys := s.searchableKeys ++ [itemKey p] } : LoopState).binCount = 0 := hn0
        rw [hred, hstep, hext]
        refine ⟨hih.1, ?_, ?_, ?_, ?_, ?_, ?_⟩
        · rw [hfc, hn0, hih.2.1, hn0', List.take_zero, List.take_zero]
        · rw [hfc, hn0, hih.2.2.1, hn0', List.take_zero, List.take_zero]
        · rw [hih.2.2.2.1]
          simp [List.filterMap_cons, hqk, List.append_assoc]
        · intro q hq
          rw [hfc, hn0, List.take_zero] at hq
          exact absurd hq (List.not_mem_nil q)
        · intro q hq
          rw [hfc, hn0, List.drop_zero] at hq
          rcases List.mem_cons.mp hq with hqp | hqr
          · subst hqp
            have h7 := hih.2.2.2.2.2.2 (itemKey q) (fun r hr => hkne r hr)
            rw [h7]
            exact dictGet_dictSet_self ..
          · have hq' : q ∈ (rest.filter (binReadyItemB d0)).drop
                (cfg.binaryPerCycleLimit -
                  ({ s with
                    localDocs := dictSet s.localDocs (itemKey p) (pendingRecordOf now p)
                    rebound := s.rebound ++ [itemKey p]
                    searchableKeys := s.searchableKeys ++ [itemKey p] } : LoopState).binCount) := by
              rw [hn0', List.drop_zero]
              exact hqr
            exact hih.2.2.2.2.2.1 q hq'
        · intro key hkey
          have h7 := hih.2.2.2.2.2.2 key (fun q hq => hkey q (List.mem_cons_of_mem p hq))
          rw [h7]
          exact dictGet_dictSet_ne _ _ _ _ (hkey p (List.mem_cons_self p rest))
      · -- extraction fires
        have hcap' : s.binCount < cfg.binaryPerCycleLimit := Nat.lt_of_not_le hcap
        have hirec : buildDocumentRecord cfg now p.1 p.2 sig
            (pyOr (extractDocumentText p.2).1 "") (extractDocumentText p.2).2.1 =
            indexedRecordOf cfg now p := by
          rw [indexedRecordOf, hsig, pyOr_some_empty]
        have hext : processExtract cfg false "" "" now
            { s with searchableKeys := s.searchableKeys ++ [itemKey p] }
            p.1 p.2 (itemKey p) sig =
            { s with
              localDocs := dictSet s.localDocs (itemKey p) (indexedRecordOf cfg now p)
              rebound := s.rebound ++ [itemKey p]
              searchableKeys := s.searchableKeys ++ [itemKey p]
              binCount := s.binCount + 1
              extractedKeys := s.extractedKeys ++ [itemKey p] } := by
          rw [processExtract_extracts cfg now
            { s with searchableKeys := s.searchableKeys ++ [itemKey p] }
            p.1 p.2 (itemKey p) sig hbin hcap' hok]
          rw [hirec]
        have hn1 : cfg.binaryPerCycleLimit - s.binCount =
            (cfg.binaryPerCycleLimit - (s.binCount + 1)) + 1 := by omega
        have hih := ih
          { s with
            localDocs := dictSet s.localDocs (itemKey p) (indexedRecordOf cfg now p)
            rebound := s.rebound ++ [itemKey p]
            searchableKeys := s.searchableKeys ++ [itemKey p]
            binCount := s.binCount + 1
            extractedKeys := s.extractedKeys ++ [itemKey p] }
          (fun q hq => hall q (List.mem_cons_of_mem p hq)) hnd'
          (fun q hq => hwrite (indexedRecordOf cfg now p) q hq)
        rw [hred, hstep, hext]
        refine ⟨hih.1, ?_, ?_, ?_, ?_, ?_, ?_⟩
        · rw [hfc, hn1, List.take_succ_cons, hih.2.1]
          simp [List.append_assoc]
        · rw [hfc, hn1, List.take_succ_cons, hih.2.2.1]
          simp [List.length_cons, Nat.add_assoc, Nat.add_comm, Nat.add_left_comm]
        · rw [hih.2.2.2.1]
          simp [List.filterMap_cons, hqk, List.append_assoc]
        · intro q hq
          rw [hfc, hn1, List.take_succ_cons] at hq
          rcases List.mem_cons.mp hq with hqp | hqr
          · subst hqp
            have h7 := hih.2.2.2.2.2.2 (itemKey q) (fun r hr => hkne r hr)
            rw [h7]
            exact dictGet_dictSet_self ..
          · exact hih.2.2.2.2.1 q hqr
        · intro q hq
          rw [hfc, hn1, List.drop_succ_cons] at hq
          exact hih.2.2.2.2.2.1 q hq
        · intro key hkey
          have h7 := hih.2.2.2.2.2.2 key (fun q hq => hkey q (List.mem_cons_of_mem p hq))
          rw [h7]
          exact dictGet_dictSet_ne _ _ _ _ (hkey p (List.mem_cons_self p rest))

/-- A row whose current record is the freshly indexed one is in the
refresh-only regime on the next cycle. -/
theorem refreshOnly_of_indexed (cfg : IndexerConfig) (now : String)
    {d0 d : List (String × DocRecord)} {p : PatientCard × FileItem}
    (hb : binReadyItemB d0 p = true)
    (hget : dictGet d (itemKey p) = some (indexedRecordOf cfg now p)) :
    refreshOnlyItemB d p = true := by
  obtain ⟨h1, h2, h3, h4, hbin, ⟨sig, hsig⟩, hok, hqk⟩ := binReady_facts hb
  have hget' : dictGet d (documentKey (pyLower (pyStrip (pyOr p.1.patient_key "")))
      (pyLower (pyStrip (pyOr p.2.file_id "")))) = some (indexedRecordOf cfg now p) := hget
  rw [refreshOnlyItemB, if_neg h1, if_neg h2, if_neg h3, if_neg h4, hsig]
  dsimp only
  rw [hget']
  dsimp only
  have hsigv : (indexedRecordOf cfg now p).signature = some sig := by
    rw [indexedRecordOf]
    show some (pyOr p.2.fs_signature "") = some sig
    rw [hsig, pyOr_some_empty]
  have hsigm : pyOr (indexedRecordOf cfg now p).signature "" = sig := by
    rw [hsigv, pyOr_some_empty]
  have hst : (indexedRecordOf cfg now p).status = "indexed" := rfl
  have hrr : refreshRecord p.1 p.2 (indexedRecordOf cfg now p) = indexedRecordOf cfg now p := rfl
  rw [hsigm, hst, hrr]
  simp

/-- A row whose current record is the throttle pending one is still
binary-ready on the next cycle. -/
theorem binReady_of_pending (now : String)
    {d0 d : List (String × DocRecord)} {p : PatientCard × FileItem}
    (hb : binReadyItemB d0 p = true)
    (hget : dictGet d (itemKey p) = some (pendingRecordOf now p)) :
    binReadyItemB d p = true := by
  obtain ⟨h1, h2, h3, h4, hbin, ⟨sig, hsig⟩, hok, hqk⟩ := binReady_facts hb
  have hget' : dictGet d (documentKey (pyLower (pyStrip (pyOr p.1.patient_key "")))
      (pyLower (pyStrip (pyOr p.2.file_id "")))) = some (pendingRecordOf now p) := hget
  rw [binReadyItemB, if_neg h1, if_neg h2, if_neg h3, if_neg h4]
  rw [if_neg (show ¬(p.2.is_text = true) by rw [hbin]; exact Bool.false_ne_true)]
  rw [hsig]
  dsimp only
  rw [hget']
  dsimp only
  have hst : (pendingRecordOf now p).status = "pending" := rfl
  rw [hst]
  simp [hok]

/-- One unforced untargeted cycle over a catalog of refresh-only and
binary-ready rows: it extracts the first `binary_per_cycle_limit`
binary-ready rows (indexing them) and defers the rest as pending. -/
theorem runIndexCycle_throttle (cfg : IndexerConfig) (st : IndexState) (inp : CycleInput)
    (hforce : inp.force = false) (htp : inp.patientKey = none) (htf : inp.fileId = none)
    (hexc : inp.excAt = none)
    (hall : ∀ p ∈ flattenCatalog inp.catalog, refreshOnlyItemB st.documents p = true ∨
      binReadyItemB st.documents p = true)
    (hnd : ((flattenCatalog inp.catalog).map itemKey).Nodup) :
    (runIndexCycle cfg st inp).raised = false ∧
    (runIndexCycle cfg st inp).extractedKeys =
      (((flattenCatalog inp.catalog).filter (binReadyItemB st.documents)).take
        cfg.binaryPerCycleLimit).map itemKey ∧
    (∀ p ∈ ((flattenCatalog inp.catalog).filter (binReadyItemB st.documents)).take
        cfg.binaryPerCycleLimit,
      dictGet (runIndexCycle cfg st inp).state.documents (itemKey p) =
        some (indexedRecordOf cfg inp.cycleStart p)) ∧
    (∀ p ∈ ((flattenCatalog inp.catalog).filter (binReadyItemB st.documents)).drop
        cfg.binaryPerCycleLimit,
      dictGet (runIndexCycle cfg st inp).state.documents (itemKey p) =
        some (pendingRecordOf inp.cycleStart p)) := by
  rw [runIndexCycle, hexc, htp, htf, hforce]
  rw [show pyLower (pyStrip (pyOr (none : Option String) "")) = "" from rfl]
  have hfold := runFiles_mixed cfg inp.cycleStart st.documents (flattenCatalog inp.catalog)
    { localDocs := st.documents, sharedDocs := st.documents, rebound := []
      searchableKeys := [], binCount := 0, extractedKeys := [] }
    hall hnd (fun p hp => ⟨rfl, rfl, rfl⟩)
  rw [hfold.1]
  dsimp only
  rw [if_pos ⟨rfl, rfl⟩]
  refine ⟨rfl, ?_, ?_, ?_⟩
  · rw [hfold.2.1]
    simp
  · intro p hp
    have hp' : p ∈ ((flattenCatalog inp.catalog).filter (binReadyItemB st.documents)).take
        (cfg.binaryPerCycleLimit - 0) := by
      rw [Nat.sub_zero]
      exact hp
    have hpf : p ∈ (flattenCatalog inp.catalog).filter (binReadyItemB st.documents) :=
      List.mem_of_mem_take hp'
    have hpl : p ∈ flattenCatalog inp.catalog := (List.mem_filter.mp hpf).1
    have hbr : binReadyItemB st.documents p = true := (List.mem_filter.mp hpf).2
    have hqk : qualKey p = some (itemKey p) := (binReady_facts hbr).2.2.2.2.2.2.2
    have hget := hfold.2.2.2.2.1 p hp'
    have hcon : (runFilesExc cfg false "" "" inp.cycleStart none (flattenCatalog inp.catalog)
        { localDocs := st.documents, sharedDocs := st.documents, rebound := []
          searchableKeys := [], binCount := 0,
          extractedKeys := [] }).1.searchableKeys.contains (itemKey p) = true := by
      rw [hfold.2.2.2.1]
      refine strList_contains_of_mem ?_
      show itemKey p ∈ ([] : List String) ++ (flattenCatalog inp.catalog).filterMap qualKey
      rw [List.nil_append]
      exact List.mem_filterMap.mpr ⟨p, hpl, hqk⟩
    exact dictGet_filter _ _ _ _ hget hcon
  · intro p hp
    have hp' : p ∈ ((flattenCatalog inp.catalog).filter (binReadyItemB st.documents)).drop
        (cfg.binaryPerCycleLimit - 0) := by
      rw [Nat.sub_zero]
      exact hp
    have hpf : p ∈ (flattenCatalog inp.catalog).filter (binReadyItemB st.documents) :=
      List.mem_of_mem_drop hp'
    have hpl : p ∈ flattenCatalog inp.catalog := (List.mem_filter.mp hpf).1
    have hbr : binReadyItemB st.documents p = true := (List.mem_filter.mp hpf).2
    have hqk : qualKey p = some (itemKey p) := (binReady_facts hbr).2.2.2.2.2.2.2
    have hget := hfold.2.2.2.2.2.1 p hp'
    have hcon : (runFilesExc cfg false "" "" inp.cycleStart none (flattenCatalog inp.catalog)
        { localDocs := st.documents, sharedDocs := st.documents, rebound := []
          searchableKeys := [], binCount := 0,
          extractedKeys := [] }).1.searchableKeys.contains (itemKey p) = true := by
      rw [hfold.2.2.2.1]
      refine strList_contains_of_mem ?_
      show itemKey p ∈ ([] : List String) ++ (flattenCatalog inp.catalog).filterMap qualKey
      rw [List.nil_append]
      exact List.mem_filterMap.mpr ⟨p, hpl, hqk⟩
    exact dictGet_filter _ _ _ _ hget hcon

/-- C2: for a catalog of binary-source files all needing extraction (with
pairwise-distinct document keys), more numerous than the per-cycle cap, a
single unforced untargeted cycle invokes the extraction pipeline on exactly
the first `cap` of them, writes every remaining binary file's record with
status `pending` and the queued-for-next-cycle reason, and a subsequent
unforced untargeted cycle over the same catalog extracts exactly the next
`cap` (the remainder, up to the cap again). -/
theorem c2_binary_throttle (cfg : IndexerConfig) (st : IndexState) (inp inp2 : CycleInput)
    (hforce : inp.force = false) (htp : inp.patientKey = none) (htf : inp.fileId = none)
    (hexc : inp.excAt = none)
    (hforce2 : inp2.force = false) (htp2 : inp2.patientKey = none) (htf2 : inp2.fileId = none)
    (hexc2 : inp2.excAt = none) (hcat2 : inp2.catalog = inp.catalog)
    (hbins : ∀ p ∈ flattenCatalog inp.catalog, binReadyItemB st.documents p = true)
    (hnd : ((flattenCatalog inp.catalog).map itemKey).Nodup)
    (hlen : cfg.binaryPerCycleLimit < (flattenCatalog inp.catalog).length) :
    (runIndexCycle cfg st inp).extractedKeys =
      ((flattenCatalog inp.catalog).take cfg.binaryPerCycleLimit).map itemKey ∧
    (runIndexCycle cfg st inp).extractedKeys.length = cfg.binaryPerCycleLimit ∧
    (∀ p ∈ (flattenCatalog inp.catalog).drop cfg.binaryPerCycleLimit,
      dictGet (runIndexCycle cfg st inp).state.documents (itemKey p) =
        some (pendingRecordOf inp.cycleStart p) ∧
      (pendingRecordOf inp.cycleStart p).status = "pending" ∧
      (pendingRecordOf inp.cycleStart p).error =
        some "Queued for upcoming cycle (binary extraction throttle)") ∧
    (runIndexCycle cfg (runIndexCycle cfg st inp).state inp2).extractedKeys =
      (((flattenCatalog inp.catalog).drop cfg.binaryPerCycleLimit).take
        cfg.binaryPerCycleLimit).map itemKey := by
  have hfe : (flattenCatalog inp.catalog).filter (binReadyItemB st.documents) =
      flattenCatalog inp.catalog := List.filter_eq_self.mpr hbins
  have h1 := runIndexCycle_throttle cfg st inp hforce htp htf hexc
    (fun p hp => Or.inr (hbins p hp)) hnd
  rw [hfe] at h1
  refine ⟨h1.2.1, ?_, ?_, ?_⟩
  · rw [h1.2.1, List.length_map, List.length_take]
    exact Nat.min_eq_left (Nat.le_of_lt hlen)
  · intro p hp
    exact ⟨h1.2.2.2 p hp, rfl, rfl⟩
  · have hall2 : ∀ p ∈ flattenCatalog inp2.catalog,
        refreshOnlyItemB (runIndexCycle cfg st inp).state.documents p = true ∨
        binReadyItemB (runIndexCycle cfg st inp).state.documents p = true := by
      rw [hcat2]
      intro p hp
      rw [← List.take_append_drop cfg.binaryPerCycleLimit (flattenCatalog inp.catalog)] at hp
      rcases List.mem_append.mp hp with hptake | hpdrop
      · exact Or.inl (refreshOnly_of_indexed cfg inp.cycleStart
          (hbins p (List.mem_of_mem_take hptake)) (h1.2.2.1 p hptake))
      · exact Or.inr (binReady_of_pending inp.cycleStart
          (hbins p (List.mem_of_mem_drop hpdrop)) (h1.2.2.2 p hpdrop))
    have hnd2 : ((flattenCatalog inp2.catalog).map itemKey).Nodup := by
      rw [hcat2]
      exact hnd
    have h2 := runIndexCycle_throttle cfg (runIndexCycle cfg st inp).state inp2
      hforce2 htp2 htf2 hexc2 hall2 hnd2
    have hfilter2 : (flattenCatalog inp2.catalog).filter
        (binReadyItemB (runIndexCycle cfg st inp).state.documents) =
        (flattenCatalog inp.catalog).drop cfg.binaryPerCycleLimit := by
      rw [hcat2]
      conv_lhs => rw [← List.take_append_drop cfg.binaryPerCycleLimit
        (flattenCatalog inp.catalog)]
      rw [List.filter_append]
      have hnil : ((flattenCatalog inp.catalog).take cfg.binaryPerCycleLimit).filter
          (binReadyItemB (runIndexCycle cfg st inp).state.documents) = [] := by
        rw [List.filter_eq_nil_iff]
        intro p hptake
        have hro := refreshOnly_of_indexed cfg inp.cycleStart
          (hbins p (List.mem_of_mem_take hptake)) (h1.2.2.1 p hptake)
        rw [refreshOnly_not_binReady hro]
        exact Bool.false_ne_true
      have hself : ((flattenCatalog inp.catalog).drop cfg.binaryPerCycleLimit).filter
          (binReadyItemB (runIndexCycle cfg st inp).state.documents) =
          (flattenCatalog inp.catalog).drop cfg.binaryPerCycleLimit := by
        rw [List.filter_eq_self]
        intro p hpdrop
        exact binReady_of_pending inp.cycleStart
          (hbins p (List.mem_of_mem_drop hpdrop)) (h1.2.2.2 p hpdrop)
      rw [hnil, hself, List.nil_append]
    rw [h2.2.1, hfilter2]

def c2Cfg : IndexerConfig := { c6Cfg with binaryPerCycleLimit := 1 }

def c2Catalog : List CatalogEntry :=
  [{ patient := patient1
     files := [pdfItem "f1" "x.pdf" "p1/x.pdf" "9:5" "alpha",
               pdfItem "f2" "y.pdf" "p1/y.pdf" "9:6" "beta"] }]

def c2Inp : CycleInput := untargetedInput false c2Catalog none

theorem c2_binary_throttle_witness :
    (runIndexCycle c2Cfg emptyIndex c2Inp).extractedKeys = ["p1::f1"] ∧
    (runIndexCycle c2Cfg (runIndexCycle c2Cfg emptyIndex c2Inp).state c2Inp).extractedKeys =
      ["p1::f2"] := by
  have h := c2_binary_throttle c2Cfg emptyIndex c2Inp c2Inp rfl rfl rfl rfl rfl rfl rfl rfl rfl
    (by
      simp only [show flattenCatalog c2Inp.catalog =
        [(patient1, pdfItem "f1" "x.pdf" "p1/x.pdf" "9:5" "alpha"),
         (patient1, pdfItem "f2" "y.pdf" "p1/y.pdf" "9:6" "beta")] from rfl,
        List.mem_cons, List.mem_singleton]
      rintro p (rfl | rfl | hemp)
      · rfl
      · rfl
      · exact absurd hemp (List.not_mem_nil p))
    (by decide)
    (by decide)
  constructor
  · rw [h.1]
    rfl
  · rw [h.2.2.2]
    rfl
